import Mathlib

/-!
# Fresh-snow surface density (`src/surfacedensity.cpp`)

A shallow embedding of the fresh-snow density selector and of its seven estimators,
followed by theorems about them.

## Model of `double`

A C++ `double` is modelled by `Double`: either `val x` for an exact real number `x`, or `nan`.
Arithmetic on `val` is exact real arithmetic (rounding, overflow and signed infinities are not
modelled); `nan` is produced exactly where the C library reports a domain error (`sqrt` of a
negative number, `pow` of a negative base with a non-integer exponent) and is propagated by
arithmetic. Every comparison with `nan` is false, as in IEEE 754.

Two properties, the strict ranges of the wind terms of AndersonListon and of Slater2016, depend
on rounding. For them the estimators concerned are embedded a second time over `Binary64`, in
which every literal, operation and library function rounds to the nearest binary64 number.

## Missing headers

`constants.h`, `config.h`, `meteo.h` and `logging.h` are not part of the sources. The constant
`T0` is a parameter of every formula that uses it, the configuration reader is a parameter
(`Config`) of the selector, and a meteorology provider is the record `Meteo` of its five
readings. Log output has no effect on any returned value and is left out.
-/

noncomputable section

/-- A `double`: an exact real number, or `nan`. -/
inductive Double where
  | nan : Double
  | val (x : ℝ) : Double

namespace Double

instance : Coe ℝ Double := ⟨val⟩

instance (n : ℕ) : OfNat Double n := ⟨val (n : ℝ)⟩

instance : OfScientific Double := ⟨fun m s e => val (OfScientific.ofScientific m s e)⟩

/-- Operator `+` on doubles. -/
def add : Double → Double → Double
  | val a, val b => val (a + b)
  | _, _ => nan

/-- Operator binary `-` on doubles. -/
def sub : Double → Double → Double
  | val a, val b => val (a - b)
  | _, _ => nan

/-- Operator `*` on doubles. -/
def mul : Double → Double → Double
  | val a, val b => val (a * b)
  | _, _ => nan

/-- Operator `/` on doubles; a zero divisor gives a non-finite result, modelled by `nan`. -/
def div : Double → Double → Double
  | val a, val b => if b = 0 then nan else val (a / b)
  | _, _ => nan

/-- Operator unary `-` on doubles. -/
def neg : Double → Double
  | val a => val (-a)
  | nan => nan

instance : Add Double := ⟨add⟩
instance : Sub Double := ⟨sub⟩
instance : Mul Double := ⟨mul⟩
instance : Div Double := ⟨div⟩
instance : Neg Double := ⟨neg⟩

/-- Operator `<` on doubles: false as soon as one side is `nan`. -/
def lt : Double → Double → Prop
  | val a, val b => a < b
  | _, _ => False

/-- Operator `<=` on doubles: false as soon as one side is `nan`. -/
def le : Double → Double → Prop
  | val a, val b => a ≤ b
  | _, _ => False

instance : LT Double := ⟨lt⟩
instance : LE Double := ⟨le⟩

instance (a b : Double) : Decidable (a < b) := Classical.propDecidable _
instance (a b : Double) : Decidable (a ≤ b) := Classical.propDecidable _

/-- The library function `sqrt`: a negative argument is a domain error. -/
def sqrt : Double → Double
  | val a => if a < 0 then nan else val (Real.sqrt a)
  | nan => nan

/-- The library function `exp`. -/
def exp : Double → Double
  | val a => val (Real.exp a)
  | nan => nan

/-- The library function `std::tanh`. -/
def tanh : Double → Double
  | val a => val (Real.tanh a)
  | nan => nan

/-- The real number `y` is an integer (`y == trunc(y)`). -/
def isInteger (y : ℝ) : Prop := ∃ n : ℤ, (n : ℝ) = y

instance (y : ℝ) : Decidable (isInteger y) := Classical.propDecidable _

/-- The library function `pow`: a negative base with a non-integer exponent is a domain error,
a zero base with a negative exponent is a pole (non-finite, modelled by `nan`);
`pow(x, 0)` and `pow(1, y)` are `1` even for a `nan` argument. -/
def pow : Double → Double → Double
  | val x, val y =>
    if x < 0 ∧ ¬ isInteger y then nan
    else if x = 0 ∧ y < 0 then nan
    else val (x ^ y)
  | nan, val y => if y = 0 then val 1 else nan
  | val x, nan => if x = 1 then val 1 else nan
  | nan, nan => nan

/-- The library function `std::max(a, b)`, which is `(a < b) ? b : a`. -/
def max (a b : Double) : Double := if a < b then b else a

end Double

open Double (sqrt exp tanh pow val nan)

/-- The meteorology provider `Meteo`: the current values of its five accessors. -/
structure Meteo where
  surfaceTemperature : Double
  surfaceWind : Double
  annualTskin : Double
  annualAcc : Double
  annualW10m : Double

/-- Termination of the process: by the configuration reader (`configError`, for the named
option), or by `std::abort()` in the selector after logging
`ERROR: unknown value: <which_fsd> for config option <option_name>`. -/
inductive Fatal where
  | configError (option_name : String) : Fatal
  | unknownValue (which_fsd : Int) (option_name : String) : Fatal

/-- The global `config` object of `config.h`, whose code is not part of the sources: its two
readers `getInt(name, required, min, max, default)` and
`getDouble(name, required, min, max, default)`, each of which returns a value or terminates the
process. -/
structure Config where
  getInt : String → Bool → Int → Int → Int → Except Fatal Int
  getDouble : String → Bool → Double → Double → Double → Except Fatal Double

/-- Modelled from the spec: the configuration source read by `config`, whose code (`config.h`) is
not part of the sources. An option is absent or has a value. The spec says of the readers that
each is "validating bounds and either returning a value or triggering the required/fatal-error
policy": a value outside `min .. max` is fatal, an absent required option is fatal, an absent
optional option gives the default. -/
structure ConfigFile where
  ints : String → Option Int
  doubles : String → Option Double

/-- Modelled from the spec: the reader `getInt(name, required, min, max, default)`. -/
def ConfigFile.getInt (file : ConfigFile) (name : String) (required : Bool) (min max dflt : Int) :
    Except Fatal Int :=
  match file.ints name with
  | some v => if min ≤ v ∧ v ≤ max then .ok v else .error (.configError name)
  | none => if required then .error (.configError name) else .ok dflt

/-- Modelled from the spec: the reader `getDouble(name, required, min, max, default)`. -/
def ConfigFile.getDouble (file : ConfigFile) (name : String) (required : Bool)
    (min max dflt : Double) : Except Fatal Double :=
  match file.doubles name with
  | some v => if min ≤ v ∧ v ≤ max then .ok v else .error (.configError name)
  | none => if required then .error (.configError name) else .ok dflt

/-- Modelled from the spec: the `config` object reading a given configuration source. -/
def ConfigFile.config (file : ConfigFile) : Config :=
  ⟨file.getInt, file.getDouble⟩

/-- The estimator classes derived from `SurfaceDensity`. Every estimator refers to the one shared
meteorology provider, which `density` receives as an argument; `Constant` carries its member
`_val`; the member `_sda` of `AndersonListon` is always a `SurfaceDensityAnderson` on the same
provider and carries no data. -/
inductive SurfaceDensity where
  | Constant (_val : Double) : SurfaceDensity
  | Helsen2008 : SurfaceDensity
  | Lenaerts2012 : SurfaceDensity
  | CROCUS : SurfaceDensity
  | Anderson : SurfaceDensity
  | AndersonListon : SurfaceDensity
  | Slater2016 : SurfaceDensity

/-- Constructor `SurfaceDensityConstant::SurfaceDensityConstant`: reads the required option
`fresh_snow_density:density`. -/
def SurfaceDensityConstant.new (config : Config) : Except Fatal SurfaceDensity :=
  let option_name := "fresh_snow_density:density"
  match config.getDouble option_name true 1. 1000. (-1.) with
  | .ok _val => .ok (.Constant _val)
  | .error e => .error e

/-- The selector `instantiate_surfacedensity`. -/
def instantiate_surfacedensity (config : Config) : Except Fatal SurfaceDensity :=
  let option_name := "fresh_snow_density:which_fsd"
  match config.getInt option_name false 0 6 1 with
  | .error e => .error e
  | .ok which_fsd =>
    match which_fsd with
    | 0 => SurfaceDensityConstant.new config
    | 1 => .ok .Helsen2008
    | 2 => .ok .Lenaerts2012
    | 3 => .ok .CROCUS
    | 4 => .ok .Anderson
    | 5 => .ok .AndersonListon
    | 6 => .ok .Slater2016
    | _ => .error (.unknownValue which_fsd option_name)

/-- Method `SurfaceDensityConstant::density`. -/
def SurfaceDensityConstant.density (_val : Double) (_meteo : Meteo) : Double :=
  _val

/-- Method `SurfaceDensityHelsen2008::density`. -/
def SurfaceDensityHelsen2008.density (_meteo : Meteo) : Double :=
  -154.91 + 1.4266 * (73.6 + 1.06 * _meteo.annualTskin + 0.0669 * _meteo.annualAcc
    + 4.77 * _meteo.annualW10m)

/-- Method `SurfaceDensityLenaerts2012::density`. -/
def SurfaceDensityLenaerts2012.density (_meteo : Meteo) : Double :=
  let a : Double := 97.5
  let b : Double := 0.77
  let c : Double := 4.49
  a + b * _meteo.surfaceTemperature + c * _meteo.surfaceWind

/-- Method `SurfaceDensityCROCUS::density`. -/
def SurfaceDensityCROCUS.density (T0 : Double) (_meteo : Meteo) : Double :=
  let a : Double := 109.
  let b : Double := 6.
  let c : Double := 26.
  let rho := a + b * (_meteo.surfaceTemperature - T0) + c * sqrt _meteo.surfaceWind
  Double.max rho 50.

/-- Method `SurfaceDensityAnderson::density`. -/
def SurfaceDensityAnderson.density (T0 : Double) (_meteo : Meteo) : Double :=
  let Tskin := _meteo.surfaceTemperature
  if Tskin > T0 + 2 then
    50. + 1.7 * pow 17. 1.5
  else if T0 - 15. < Tskin then
    50. + 1.7 * pow (Tskin - T0 + 15) 1.5
  else
    50.

/-- Method `SurfaceDensityAndersonListon::density`; `_sda->density()` is the Anderson density on
the same provider. -/
def SurfaceDensityAndersonListon.density (T0 : Double) (_meteo : Meteo) : Double :=
  let forc_wind := _meteo.surfaceWind
  let dens := SurfaceDensityAnderson.density T0 _meteo
  if forc_wind ≥ 5. then
    dens + (25. + 250. * (1. - exp (-0.2 * (forc_wind - 5.))))
  else
    dens

/-- Method `SurfaceDensitySlater2016::density`. -/
def SurfaceDensitySlater2016.density (T0 : Double) (_meteo : Meteo) : Double :=
  let forc_wind := _meteo.surfaceWind
  let Tskin := _meteo.surfaceTemperature
  let dens :=
    if Tskin > T0 + 2 then
      170.
    else if T0 - 15. < Tskin then
      50. + 1.7 * pow (Tskin - T0 + 15) 1.5
    else
      -3.8333 * (Tskin - T0) - 0.0333 * pow (Tskin - T0) 2
  dens + 266.861 * pow ((1. + tanh (forc_wind / 5.0)) / 2.) 8.8

/-- The virtual method `SurfaceDensity::density`, dispatched on the class of the estimator. -/
def SurfaceDensity.density (T0 : Double) (_meteo : Meteo) : SurfaceDensity → Double
  | .Constant _val => SurfaceDensityConstant.density _val _meteo
  | .Helsen2008 => SurfaceDensityHelsen2008.density _meteo
  | .Lenaerts2012 => SurfaceDensityLenaerts2012.density _meteo
  | .CROCUS => SurfaceDensityCROCUS.density T0 _meteo
  | .Anderson => SurfaceDensityAnderson.density T0 _meteo
  | .AndersonListon => SurfaceDensityAndersonListon.density T0 _meteo
  | .Slater2016 => SurfaceDensitySlater2016.density T0 _meteo

/-- A configuration source that selects the constant estimator and does not set
`fresh_snow_density:density`. -/
def configWithoutDensity : Config :=
  ConfigFile.config ⟨fun _ => some 0, fun _ => none⟩

/-! ## Binary64 arithmetic

The claims about the strict range of a computed term depend on rounding. For them the estimators
concerned are embedded a second time over `Binary64`, where every literal, every arithmetic
operation and every library function rounds its exact result to the nearest binary64 number,
ties to even (53 significant bits, gradual underflow below `2^(-1022)`; the library functions
are taken as correctly rounded; overflow beyond `2^1024` is not modelled). -/

/-- Rounding of a real number to the nearest integer, ties to the even integer. -/
def roundNearestEven (y : ℝ) : ℤ :=
  if y - ⌊y⌋ < 1 / 2 then ⌊y⌋
  else if 1 / 2 < y - ⌊y⌋ then ⌊y⌋ + 1
  else if Even ⌊y⌋ then ⌊y⌋ else ⌊y⌋ + 1

/-- Exponent of the unit in the last place of the binary64 numbers near `x`: 52 below the
exponent of `x`, and `-1074` for subnormal `x`. -/
def ulpExponent (x : ℝ) : ℤ := max (Int.log 2 |x|) (-1022) - 52

/-- Rounding of a real number to binary64: to the nearest multiple of the unit in the last
place, ties to even. -/
def roundBinary64 (x : ℝ) : ℝ :=
  (roundNearestEven (x / (2 : ℝ) ^ ulpExponent x) : ℝ) * (2 : ℝ) ^ ulpExponent x

/-- A `double` with binary64 rounding: a real number (the result of a rounding), or `nan`. -/
inductive Binary64 where
  | nan : Binary64
  | val (x : ℝ) : Binary64

namespace Binary64

instance (n : ℕ) : OfNat Binary64 n := ⟨val (roundBinary64 (n : ℝ))⟩

instance : OfScientific Binary64 :=
  ⟨fun m s e => val (roundBinary64 (OfScientific.ofScientific m s e))⟩

/-- Operator `+` on doubles, rounded. -/
def add : Binary64 → Binary64 → Binary64
  | val a, val b => val (roundBinary64 (a + b))
  | _, _ => nan

/-- Operator binary `-` on doubles, rounded. -/
def sub : Binary64 → Binary64 → Binary64
  | val a, val b => val (roundBinary64 (a - b))
  | _, _ => nan

/-- Operator `*` on doubles, rounded. -/
def mul : Binary64 → Binary64 → Binary64
  | val a, val b => val (roundBinary64 (a * b))
  | _, _ => nan

/-- Operator `/` on doubles, rounded; a zero divisor gives a non-finite result, modelled by
`nan`. -/
def div : Binary64 → Binary64 → Binary64
  | val a, val b => if b = 0 then nan else val (roundBinary64 (a / b))
  | _, _ => nan

/-- Operator unary `-` on doubles (exact). -/
def neg : Binary64 → Binary64
  | val a => val (-a)
  | nan => nan

instance : Add Binary64 := ⟨add⟩
instance : Sub Binary64 := ⟨sub⟩
instance : Mul Binary64 := ⟨mul⟩
instance : Div Binary64 := ⟨div⟩
instance : Neg Binary64 := ⟨neg⟩

/-- Operator `<` on doubles: false as soon as one side is `nan`. -/
def lt : Binary64 → Binary64 → Prop
  | val a, val b => a < b
  | _, _ => False

/-- Operator `<=` on doubles: false as soon as one side is `nan`. -/
def le : Binary64 → Binary64 → Prop
  | val a, val b => a ≤ b
  | _, _ => False

instance : LT Binary64 := ⟨lt⟩
instance : LE Binary64 := ⟨le⟩

instance (a b : Binary64) : Decidable (a < b) := Classical.propDecidable _
instance (a b : Binary64) : Decidable (a ≤ b) := Classical.propDecidable _

/-- The library function `exp`, correctly rounded. -/
def exp : Binary64 → Binary64
  | val a => val (roundBinary64 (Real.exp a))
  | nan => nan

/-- The library function `std::tanh`, correctly rounded. -/
def tanh : Binary64 → Binary64
  | val a => val (roundBinary64 (Real.tanh a))
  | nan => nan

/-- The library function `pow`, correctly rounded, with the domain errors of `Double.pow`. -/
def pow : Binary64 → Binary64 → Binary64
  | val x, val y =>
    if x < 0 ∧ ¬ Double.isInteger y then nan
    else if x = 0 ∧ y < 0 then nan
    else val (roundBinary64 (x ^ y))
  | nan, val y => if y = 0 then val 1 else nan
  | val x, nan => if x = 1 then val 1 else nan
  | nan, nan => nan

end Binary64

/-- The meteorology provider `Meteo`, with binary64 readings. -/
structure Meteo64 where
  surfaceTemperature : Binary64
  surfaceWind : Binary64
  annualTskin : Binary64
  annualAcc : Binary64
  annualW10m : Binary64

/-- Method `SurfaceDensityAnderson::density`, in binary64 arithmetic. -/
def SurfaceDensityAnderson.density64 (T0 : Binary64) (_meteo : Meteo64) : Binary64 :=
  let Tskin := _meteo.surfaceTemperature
  if Tskin > T0 + 2 then
    50. + 1.7 * Binary64.pow 17. 1.5
  else if T0 - 15. < Tskin then
    50. + 1.7 * Binary64.pow (Tskin - T0 + 15) 1.5
  else
    50.

/-- Method `SurfaceDensityAndersonListon::density`, in binary64 arithmetic; `_sda->density()` is
the Anderson density on the same provider. -/
def SurfaceDensityAndersonListon.density64 (T0 : Binary64) (_meteo : Meteo64) : Binary64 :=
  let forc_wind := _meteo.surfaceWind
  let dens := SurfaceDensityAnderson.density64 T0 _meteo
  if forc_wind ≥ 5. then
    dens + (25. + 250. * (1. - Binary64.exp (-0.2 * (forc_wind - 5.))))
  else
    dens

/-- Method `SurfaceDensitySlater2016::density`, in binary64 arithmetic. -/
def SurfaceDensitySlater2016.density64 (T0 : Binary64) (_meteo : Meteo64) : Binary64 :=
  let forc_wind := _meteo.surfaceWind
  let Tskin := _meteo.surfaceTemperature
  let dens :=
    if Tskin > T0 + 2 then
      170.
    else if T0 - 15. < Tskin then
      50. + 1.7 * Binary64.pow (Tskin - T0 + 15) 1.5
    else
      -3.8333 * (Tskin - T0) - 0.0333 * Binary64.pow (Tskin - T0) 2
  dens + 266.861 * Binary64.pow ((1. + Binary64.tanh (forc_wind / 5.0)) / 2.) 8.8

/-! ## Arithmetic of `Double` -/

namespace Double

@[simp] theorem ofNat_eq (n : ℕ) [n.AtLeastTwo] :
    (OfNat.ofNat n : Double) = val (OfNat.ofNat n) := rfl

@[simp] theorem zero_eq : (0 : Double) = val 0 := by
  show val ((0 : ℕ) : ℝ) = val 0
  rw [Nat.cast_zero]

@[simp] theorem one_eq : (1 : Double) = val 1 := by
  show val ((1 : ℕ) : ℝ) = val 1
  rw [Nat.cast_one]

@[simp] theorem ofScientific_eq (m : ℕ) (s : Bool) (e : ℕ) :
    (OfScientific.ofScientific m s e : Double) = val (OfScientific.ofScientific m s e) := rfl

@[simp] theorem val_add_val (a b : ℝ) : val a + val b = val (a + b) := rfl
@[simp] theorem val_sub_val (a b : ℝ) : val a - val b = val (a - b) := rfl
@[simp] theorem val_mul_val (a b : ℝ) : val a * val b = val (a * b) := rfl
@[simp] theorem neg_val (a : ℝ) : -val a = val (-a) := rfl
@[simp] theorem nan_add (a : Double) : nan + a = nan := rfl
@[simp] theorem add_nan (a : Double) : a + nan = nan := by cases a <;> rfl
@[simp] theorem nan_sub (a : Double) : nan - a = nan := rfl
@[simp] theorem sub_nan (a : Double) : a - nan = nan := by cases a <;> rfl
@[simp] theorem nan_mul (a : Double) : nan * a = nan := rfl
@[simp] theorem mul_nan (a : Double) : a * nan = nan := by cases a <;> rfl
@[simp] theorem neg_nan : -nan = nan := rfl

@[simp] theorem val_div_val (a b : ℝ) : val a / val b = if b = 0 then nan else val (a / b) := rfl

@[simp] theorem val_lt_val (a b : ℝ) : val a < val b ↔ a < b := Iff.rfl
@[simp] theorem val_le_val (a b : ℝ) : val a ≤ val b ↔ a ≤ b := Iff.rfl
@[simp] theorem not_nan_lt (a : Double) : ¬ nan < a := fun h => h
@[simp] theorem not_lt_nan (a : Double) : ¬ a < nan := by cases a <;> exact fun h => h
@[simp] theorem not_nan_le (a : Double) : ¬ nan ≤ a := fun h => h
@[simp] theorem not_le_nan (a : Double) : ¬ a ≤ nan := by cases a <;> exact fun h => h

@[simp] theorem sqrt_val (a : ℝ) : sqrt (val a) = if a < 0 then nan else val (Real.sqrt a) := rfl
@[simp] theorem sqrt_nan : sqrt nan = nan := rfl
@[simp] theorem exp_val (a : ℝ) : exp (val a) = val (Real.exp a) := rfl
@[simp] theorem exp_nan : exp nan = nan := rfl
@[simp] theorem tanh_val (a : ℝ) : tanh (val a) = val (Real.tanh a) := rfl
@[simp] theorem tanh_nan : tanh nan = nan := rfl

theorem pow_val_val (x y : ℝ) : pow (val x) (val y) =
    if x < 0 ∧ ¬ isInteger y then nan else if x = 0 ∧ y < 0 then nan else val (x ^ y) := rfl

/-- On a non-negative base and a non-negative exponent `pow` is the real power. -/
theorem pow_of_nonneg {x y : ℝ} (hx : 0 ≤ x) (hy : 0 ≤ y) : pow (val x) (val y) = val (x ^ y) := by
  rw [pow_val_val, if_neg (fun h => absurd hx (not_le.mpr h.1)),
    if_neg (fun h => absurd hy (not_le.mpr h.2))]

theorem max_val_val (a b : ℝ) : Double.max (val a) (val b) = val (Max.max a b) := by
  unfold Double.max
  by_cases h : a < b
  · rw [if_pos ((val_lt_val a b).mpr h), max_eq_right h.le]
  · rw [if_neg (fun h1 => h ((val_lt_val a b).mp h1)), max_eq_left (not_lt.mp h)]

theorem max_nan_left (b : Double) : Double.max nan b = nan := by
  unfold Double.max
  rw [if_neg (not_nan_lt b)]

end Double

/-! ## The selector -/

/-- C1, as stated, fails: the selector value read is `0`, inside `0 .. 6`, and yet the selector
returns no estimator: the constructor of the constant estimator terminates the process on the
missing required option `fresh_snow_density:density`. -/
theorem instantiate_surfacedensity_zero_aborts :
    configWithoutDensity.getInt "fresh_snow_density:which_fsd" false 0 6 1 = .ok 0 ∧
    ((0 : Int) ≤ 0 ∧ (0 : Int) ≤ 6) ∧
    instantiate_surfacedensity configWithoutDensity
      = .error (.configError "fresh_snow_density:density") ∧
    ¬ ∃ e, instantiate_surfacedensity configWithoutDensity = .ok e := by
  have h : instantiate_surfacedensity configWithoutDensity
      = .error (.configError "fresh_snow_density:density") := by
    simp [instantiate_surfacedensity, SurfaceDensityConstant.new, configWithoutDensity,
      ConfigFile.config, ConfigFile.getInt, ConfigFile.getDouble]
  refine ⟨?_, by decide, h, ?_⟩
  · simp [configWithoutDensity, ConfigFile.config, ConfigFile.getInt]
  · rw [h]; simp

/-- C1 (amended): when the selector value read for `fresh_snow_density:which_fsd` is `k`, the
selector returns an estimator exactly when `0 ≤ k ≤ 6` and, for `k = 0`, the required option
`fresh_snow_density:density` is read successfully; the estimator is the one of the fixed table
(`0` Constant with the value read, `1` Helsen2008, `2` Lenaerts2012, `3` CROCUS, `4` Anderson,
`5` AndersonListon, `6` Slater2016); for `k` outside `0 .. 6` the result is the fatal error for
the unknown value, never an estimator. -/
theorem instantiate_surfacedensity_table (config : Config) (k : Int)
    (hk : config.getInt "fresh_snow_density:which_fsd" false 0 6 1 = .ok k) :
    ((∃ e, instantiate_surfacedensity config = .ok e) ↔
      (0 ≤ k ∧ k ≤ 6 ∧
        (k = 0 → ∃ v, config.getDouble "fresh_snow_density:density" true 1. 1000. (-1.) = .ok v)))
    ∧ (k = 0 → ∀ v, config.getDouble "fresh_snow_density:density" true 1. 1000. (-1.) = .ok v →
        instantiate_surfacedensity config = .ok (.Constant v))
    ∧ (k = 0 → ∀ err, config.getDouble "fresh_snow_density:density" true 1. 1000. (-1.)
        = .error err → instantiate_surfacedensity config = .error err)
    ∧ (k = 1 → instantiate_surfacedensity config = .ok .Helsen2008)
    ∧ (k = 2 → instantiate_surfacedensity config = .ok .Lenaerts2012)
    ∧ (k = 3 → instantiate_surfacedensity config = .ok .CROCUS)
    ∧ (k = 4 → instantiate_surfacedensity config = .ok .Anderson)
    ∧ (k = 5 → instantiate_surfacedensity config = .ok .AndersonListon)
    ∧ (k = 6 → instantiate_surfacedensity config = .ok .Slater2016)
    ∧ (¬ (0 ≤ k ∧ k ≤ 6) → instantiate_surfacedensity config
        = .error (.unknownValue k "fresh_snow_density:which_fsd")) := by
  have h0 : k = 0 → instantiate_surfacedensity config = SurfaceDensityConstant.new config := by
    intro h; subst h; simp only [instantiate_surfacedensity, hk]
  have h1 : k = 1 → instantiate_surfacedensity config = .ok .Helsen2008 := by
    intro h; subst h; simp only [instantiate_surfacedensity, hk]
  have h2 : k = 2 → instantiate_surfacedensity config = .ok .Lenaerts2012 := by
    intro h; subst h; simp only [instantiate_surfacedensity, hk]
  have h3 : k = 3 → instantiate_surfacedensity config = .ok .CROCUS := by
    intro h; subst h; simp only [instantiate_surfacedensity, hk]
  have h4 : k = 4 → instantiate_surfacedensity config = .ok .Anderson := by
    intro h; subst h; simp only [instantiate_surfacedensity, hk]
  have h5 : k = 5 → instantiate_surfacedensity config = .ok .AndersonListon := by
    intro h; subst h; simp only [instantiate_surfacedensity, hk]
  have h6 : k = 6 → instantiate_surfacedensity config = .ok .Slater2016 := by
    intro h; subst h; simp only [instantiate_surfacedensity, hk]
  have hd : ¬ (0 ≤ k ∧ k ≤ 6) → instantiate_surfacedensity config
      = .error (.unknownValue k "fresh_snow_density:which_fsd") := by
    intro h
    simp only [instantiate_surfacedensity, hk]
    split <;> first | rfl | (exfalso; omega)
  have hc : ∀ v, config.getDouble "fresh_snow_density:density" true 1. 1000. (-1.) = .ok v →
      SurfaceDensityConstant.new config = .ok (.Constant v) := by
    intro v hv; simp only [SurfaceDensityConstant.new, hv]
  have he : ∀ err, config.getDouble "fresh_snow_density:density" true 1. 1000. (-1.)
      = .error err → SurfaceDensityConstant.new config = .error err := by
    intro err hv; simp only [SurfaceDensityConstant.new, hv]
  refine ⟨?_, fun h v hv => (h0 h).trans (hc v hv), fun h err hv => (h0 h).trans (he err hv),
    h1, h2, h3, h4, h5, h6, hd⟩
  constructor
  · rintro ⟨e, hok⟩
    by_cases hr : 0 ≤ k ∧ k ≤ 6
    · refine ⟨hr.1, hr.2, fun hk0 => ?_⟩
      cases hg : config.getDouble "fresh_snow_density:density" true 1. 1000. (-1.) with
      | ok v => exact ⟨v, rfl⟩
      | error err => rw [(h0 hk0).trans (he err hg)] at hok; cases hok
    · rw [hd hr] at hok; cases hok
  · rintro ⟨hl, hu, hv⟩
    have hcases : k = 0 ∨ k = 1 ∨ k = 2 ∨ k = 3 ∨ k = 4 ∨ k = 5 ∨ k = 6 := by omega
    rcases hcases with h | h | h | h | h | h | h
    · obtain ⟨v, hv⟩ := hv h
      exact ⟨_, (h0 h).trans (hc v hv)⟩
    · exact ⟨_, h1 h⟩
    · exact ⟨_, h2 h⟩
    · exact ⟨_, h3 h⟩
    · exact ⟨_, h4 h⟩
    · exact ⟨_, h5 h⟩
    · exact ⟨_, h6 h⟩

/-- Instance of `instantiate_surfacedensity_table`: a configuration source that sets
`fresh_snow_density:which_fsd` to `3` selects the CROCUS estimator. -/
theorem instantiate_surfacedensity_table_witness :
    (ConfigFile.config ⟨fun _ => some 3, fun _ => none⟩).getInt
      "fresh_snow_density:which_fsd" false 0 6 1 = .ok 3 ∧
    instantiate_surfacedensity (ConfigFile.config ⟨fun _ => some 3, fun _ => none⟩)
      = .ok .CROCUS :=
  have h : (ConfigFile.config ⟨fun _ => some 3, fun _ => none⟩).getInt
      "fresh_snow_density:which_fsd" false 0 6 1 = .ok 3 := by
    simp [ConfigFile.config, ConfigFile.getInt]
  ⟨h, (instantiate_surfacedensity_table _ 3 h).2.2.2.2.2.1 rfl⟩

/-! ## The constant estimator -/

/-- C2: when the option `fresh_snow_density:density` is read as `v`, the constant estimator is
constructed and its `density()` is exactly `v` for every state of the meteorology provider (and
every value of the constant `T0`). -/
theorem constant_density_eq_configured (config : Config) (v : Double)
    (hv : config.getDouble "fresh_snow_density:density" true 1. 1000. (-1.) = .ok v) :
    ∃ e, SurfaceDensityConstant.new config = .ok e ∧
      ∀ (T0 : Double) (meteo : Meteo), e.density T0 meteo = v := by
  refine ⟨.Constant v, ?_, fun T0 meteo => rfl⟩
  simp only [SurfaceDensityConstant.new, hv]

/-- Instance of `constant_density_eq_configured`: with `which_fsd = 0` and `density = 300` the
selector builds an estimator whose `density()` is `300` whatever the meteorology. -/
theorem constant_density_eq_configured_witness :
    (ConfigFile.config ⟨fun _ => some 0, fun _ => some 300⟩).getDouble
      "fresh_snow_density:density" true 1. 1000. (-1.) = .ok 300 ∧
    ∃ e, instantiate_surfacedensity (ConfigFile.config ⟨fun _ => some 0, fun _ => some 300⟩)
        = .ok e ∧
      ∀ (T0 : Double) (meteo : Meteo), e.density T0 meteo = 300 := by
  have h : (ConfigFile.config ⟨fun _ => some 0, fun _ => some 300⟩).getDouble
      "fresh_snow_density:density" true 1. 1000. (-1.) = .ok 300 := by
    simp [ConfigFile.config, ConfigFile.getDouble]
    norm_num
  refine ⟨h, ?_⟩
  obtain ⟨e, he, hd⟩ := constant_density_eq_configured _ 300 h
  refine ⟨e, ?_, hd⟩
  rw [← he]
  simp [instantiate_surfacedensity, ConfigFile.config, ConfigFile.getInt]

/-! ## CROCUS -/

/-- The CROCUS density on real readings with a non-negative wind. -/
theorem crocus_density_of_nonneg (T0 T W : ℝ) (a b c : Double) (hW : 0 ≤ W) :
    SurfaceDensityCROCUS.density (val T0) ⟨val T, val W, a, b, c⟩
      = val (max (109 + 6 * (T - T0) + 26 * Real.sqrt W) 50) := by
  simp only [SurfaceDensityCROCUS.density, Double.ofScientific_eq, Double.sqrt_val,
    if_neg (not_lt.mpr hW), Double.val_sub_val, Double.val_mul_val, Double.val_add_val,
    Double.max_val_val]
  norm_num

/-- The CROCUS density on real readings with a negative wind is `nan`. -/
theorem crocus_density_of_neg (T0 T W : ℝ) (a b c : Double) (hW : W < 0) :
    SurfaceDensityCROCUS.density (val T0) ⟨val T, val W, a, b, c⟩ = nan := by
  simp only [SurfaceDensityCROCUS.density, Double.ofScientific_eq, Double.sqrt_val,
    if_pos hW, Double.val_sub_val, Double.val_mul_val, Double.mul_nan, Double.add_nan,
    Double.max_nan_left]

/-- C3: for every surface temperature and every surface wind speed, of any sign and magnitude
(negative wind and `nan` readings included, and every value of `T0`), the CROCUS `density()`
returns a value that is not less than 50: the comparison `density() < 50` is false. On real
readings with a wind `W ≥ 0` the value is a number that is at least 50. -/
theorem crocus_density_not_lt_50 :
    (∀ (T0 : Double) (meteo : Meteo), ¬ SurfaceDensityCROCUS.density T0 meteo < val 50) ∧
    (∀ (T0 T W : ℝ) (a b c : Double), 0 ≤ W →
      ∃ r : ℝ, SurfaceDensityCROCUS.density (val T0) ⟨val T, val W, a, b, c⟩ = val r ∧ 50 ≤ r) := by
  constructor
  · intro T0 meteo
    have h50 : (50. : Double) = val 50 := by
      rw [Double.ofScientific_eq]
      norm_num
    unfold SurfaceDensityCROCUS.density
    simp only [Double.max, h50]
    split
    · exact fun h => lt_irrefl (50 : ℝ) ((Double.val_lt_val 50 50).mp h)
    · assumption
  · intro T0 T W a b c hW
    exact ⟨_, crocus_density_of_nonneg T0 T W a b c hW, le_max_right _ _⟩

/-- Instance of `crocus_density_not_lt_50`: at `T0 = 273.15`, temperature `250` and wind `9` the
density is a number that is at least 50; at wind `-9` it is not less than 50 either. -/
theorem crocus_density_not_lt_50_witness :
    ((0 : ℝ) ≤ 9 ∧ ∃ r : ℝ, SurfaceDensityCROCUS.density (val 273.15)
      ⟨val 250, val 9, val 0, val 0, val 0⟩ = val r ∧ 50 ≤ r) ∧
    ¬ SurfaceDensityCROCUS.density (val 273.15) ⟨val 250, val (-9), val 0, val 0, val 0⟩
      < val 50 :=
  ⟨⟨by norm_num, crocus_density_not_lt_50.2 273.15 250 9 (val 0) (val 0) (val 0) (by norm_num)⟩,
    crocus_density_not_lt_50.1 (val 273.15) ⟨val 250, val (-9), val 0, val 0, val 0⟩⟩

/-- C4, as stated, fails: at `T0 = 273.15`, surface temperature `253.15` and surface wind `0`,
`109 + 6*(T_sfc - T0)` is `-11` and `std::max(rho, 50.)` returns `50`. -/
theorem crocus_density_zero_wind_floored :
    SurfaceDensityCROCUS.density (val 273.15) ⟨val 253.15, val 0, val 0, val 0, val 0⟩ = val 50 ∧
    (109 + 6 * (253.15 - 273.15) : ℝ) = -11 ∧
    SurfaceDensityCROCUS.density (val 273.15) ⟨val 253.15, val 0, val 0, val 0, val 0⟩
      ≠ val (109 + 6 * (253.15 - 273.15)) := by
  have h : SurfaceDensityCROCUS.density (val 273.15) ⟨val 253.15, val 0, val 0, val 0, val 0⟩
      = val 50 := by
    rw [crocus_density_of_nonneg 273.15 253.15 0 _ _ _ le_rfl, Real.sqrt_zero]
    norm_num
  refine ⟨h, by norm_num, ?_⟩
  rw [h]
  intro hc
  injection hc with hc
  norm_num at hc

/-- C4 (amended): for every surface temperature `T_sfc`, when `surfaceWind() = 0` the CROCUS
`density()` is `max(109 + 6*(T_sfc - T0), 50)`; it is exactly `109 + 6*(T_sfc - T0)` whenever
that number is at least 50. -/
theorem crocus_density_zero_wind (T0 T : ℝ) (a b c : Double) :
    SurfaceDensityCROCUS.density (val T0) ⟨val T, val 0, a, b, c⟩
      = val (max (109 + 6 * (T - T0)) 50) ∧
    (50 ≤ 109 + 6 * (T - T0) →
      SurfaceDensityCROCUS.density (val T0) ⟨val T, val 0, a, b, c⟩
        = val (109 + 6 * (T - T0))) := by
  have h : SurfaceDensityCROCUS.density (val T0) ⟨val T, val 0, a, b, c⟩
      = val (max (109 + 6 * (T - T0)) 50) := by
    rw [crocus_density_of_nonneg T0 T 0 a b c le_rfl, Real.sqrt_zero, mul_zero, add_zero]
  exact ⟨h, fun hT => by rw [h, max_eq_left hT]⟩

/-- Instance of `crocus_density_zero_wind`: at `T0 = 273.15`, temperature `273.15` and wind `0`
the density is `109 + 6*0`. -/
theorem crocus_density_zero_wind_witness :
    (50 : ℝ) ≤ 109 + 6 * (273.15 - 273.15) ∧
    SurfaceDensityCROCUS.density (val 273.15) ⟨val 273.15, val 0, val 0, val 0, val 0⟩
      = val (109 + 6 * (273.15 - 273.15)) :=
  ⟨by norm_num,
    (crocus_density_zero_wind 273.15 273.15 (val 0) (val 0) (val 0)).2 (by norm_num)⟩

/-- C5: for every surface temperature `T` and every wind `W ≥ 0` the CROCUS `density()` is
`max(109 + 6*(T - T0) + 26*sqrt(W), 50)`; with `T = T0` and `W = 4` it is exactly `161`. -/
theorem crocus_density_formula (T0 T W : ℝ) (a b c : Double) (hW : 0 ≤ W) :
    SurfaceDensityCROCUS.density (val T0) ⟨val T, val W, a, b, c⟩
      = val (max (109 + 6 * (T - T0) + 26 * Real.sqrt W) 50) ∧
    SurfaceDensityCROCUS.density (val T0) ⟨val T0, val 4, a, b, c⟩ = val 161 := by
  refine ⟨crocus_density_of_nonneg T0 T W a b c hW, ?_⟩
  have h4 : Real.sqrt 4 = 2 := by
    rw [show (4 : ℝ) = 2 ^ 2 by norm_num, Real.sqrt_sq (by norm_num)]
  rw [crocus_density_of_nonneg T0 T0 4 a b c (by norm_num), h4]
  norm_num

/-- Instance of `crocus_density_formula` at `T0 = 273.15`, temperature `263.15`, wind `4`. -/
theorem crocus_density_formula_witness :
    (0 : ℝ) ≤ 4 ∧
    SurfaceDensityCROCUS.density (val 273.15) ⟨val 263.15, val 4, val 0, val 0, val 0⟩
      = val (max (109 + 6 * (263.15 - 273.15) + 26 * Real.sqrt 4) 50) ∧
    SurfaceDensityCROCUS.density (val 273.15) ⟨val 273.15, val 4, val 0, val 0, val 0⟩
      = val 161 :=
  ⟨by norm_num, crocus_density_formula 273.15 263.15 4 (val 0) (val 0) (val 0) (by norm_num)⟩

/-! ## Anderson -/

/-- Upper branch of the Anderson density: `Tskin > T0 + 2`. -/
theorem anderson_density_hot (T0 T : ℝ) (w a b c : Double) (hT : T0 + 2 < T) :
    SurfaceDensityAnderson.density (val T0) ⟨val T, w, a, b, c⟩
      = val (50 + 1.7 * (17 : ℝ) ^ (1.5 : ℝ)) := by
  simp only [SurfaceDensityAnderson.density, Double.ofScientific_eq, Double.ofNat_eq,
    Double.val_sub_val, Double.val_add_val, gt_iff_lt, Double.val_lt_val]
  norm_num
  rw [if_pos hT, Double.pow_of_nonneg (by norm_num) (by norm_num)]
  rfl

/-- Middle branch of the Anderson density: `T0 - 15 < Tskin` and not `Tskin > T0 + 2`. -/
theorem anderson_density_mid (T0 T : ℝ) (w a b c : Double) (h1 : T0 - 15 < T) (h2 : T ≤ T0 + 2) :
    SurfaceDensityAnderson.density (val T0) ⟨val T, w, a, b, c⟩
      = val (50 + 1.7 * (T - T0 + 15) ^ (1.5 : ℝ)) := by
  simp only [SurfaceDensityAnderson.density, Double.ofScientific_eq, Double.ofNat_eq,
    Double.val_sub_val, Double.val_add_val, gt_iff_lt, Double.val_lt_val]
  norm_num
  rw [if_neg (not_lt.mpr h2), if_pos h1, Double.pow_of_nonneg (by linarith) (by norm_num)]
  rfl

/-- Lower branch of the Anderson density: `Tskin <= T0 - 15`. -/
theorem anderson_density_cold (T0 T : ℝ) (w a b c : Double) (hT : T ≤ T0 - 15) :
    SurfaceDensityAnderson.density (val T0) ⟨val T, w, a, b, c⟩ = val 50 := by
  simp only [SurfaceDensityAnderson.density, Double.ofScientific_eq, Double.ofNat_eq,
    Double.val_sub_val, Double.val_add_val, gt_iff_lt, Double.val_lt_val]
  norm_num
  rw [if_neg (not_lt.mpr (by linarith : T ≤ T0 + 2)), if_neg (not_lt.mpr hT)]

/-- C6: the Anderson `density()` is `50 + 1.7*17^1.5` at `T_sfc = T0 + 2`, is `50` at
`T_sfc = T0 - 15`, and for every `T_sfc > T0 + 2` is the same constant `50 + 1.7*17^1.5` as at
`T0 + 2`. -/
theorem anderson_density_boundaries (T0 : ℝ) (w a b c : Double) :
    SurfaceDensityAnderson.density (val T0) ⟨val (T0 + 2), w, a, b, c⟩
      = val (50 + 1.7 * (17 : ℝ) ^ (1.5 : ℝ)) ∧
    SurfaceDensityAnderson.density (val T0) ⟨val (T0 - 15), w, a, b, c⟩ = val 50 ∧
    (∀ T : ℝ, T0 + 2 < T →
      SurfaceDensityAnderson.density (val T0) ⟨val T, w, a, b, c⟩
        = val (50 + 1.7 * (17 : ℝ) ^ (1.5 : ℝ)) ∧
      SurfaceDensityAnderson.density (val T0) ⟨val T, w, a, b, c⟩
        = SurfaceDensityAnderson.density (val T0) ⟨val (T0 + 2), w, a, b, c⟩) := by
  have h2 : SurfaceDensityAnderson.density (val T0) ⟨val (T0 + 2), w, a, b, c⟩
      = val (50 + 1.7 * (17 : ℝ) ^ (1.5 : ℝ)) := by
    rw [anderson_density_mid T0 (T0 + 2) w a b c (by linarith) le_rfl]
    rw [show T0 + 2 - T0 + 15 = (17 : ℝ) by ring]
  refine ⟨h2, anderson_density_cold T0 (T0 - 15) w a b c le_rfl, fun T hT => ?_⟩
  rw [h2]
  exact ⟨anderson_density_hot T0 T w a b c hT, anderson_density_hot T0 T w a b c hT⟩

/-- Instance of `anderson_density_boundaries`: with `T0 = 273.15`, the density at `T0 + 3` is the
saturated constant, equal to the density at `T0 + 2`. -/
theorem anderson_density_boundaries_witness :
    (273.15 : ℝ) + 2 < 273.15 + 3 ∧
    SurfaceDensityAnderson.density (val 273.15) ⟨val (273.15 + 3), val 0, val 0, val 0, val 0⟩
      = val (50 + 1.7 * (17 : ℝ) ^ (1.5 : ℝ)) ∧
    SurfaceDensityAnderson.density (val 273.15) ⟨val (273.15 + 3), val 0, val 0, val 0, val 0⟩
      = SurfaceDensityAnderson.density (val 273.15)
          ⟨val (273.15 + 2), val 0, val 0, val 0, val 0⟩ :=
  ⟨by norm_num,
    (anderson_density_boundaries 273.15 (val 0) (val 0) (val 0) (val 0)).2.2 (273.15 + 3)
      (by norm_num)⟩

/-- The Anderson density on a real surface temperature, in closed form: the base of the power
clamped to `0 .. 17`. -/
theorem anderson_density_clamped (T0 T : ℝ) (w a b c : Double) :
    SurfaceDensityAnderson.density (val T0) ⟨val T, w, a, b, c⟩
      = val (50 + 1.7 * (min (max (T - T0 + 15) 0) 17) ^ (1.5 : ℝ)) := by
  rcases lt_or_le (T0 + 2) T with h | h
  · rw [anderson_density_hot T0 T w a b c h, max_eq_left (by linarith), min_eq_right (by linarith)]
  · rcases lt_or_le (T0 - 15) T with h1 | h1
    · rw [anderson_density_mid T0 T w a b c h1 h, max_eq_left (by linarith),
        min_eq_left (by linarith)]
    · rw [anderson_density_cold T0 T w a b c h1, max_eq_right (by linarith),
        min_eq_left (by norm_num), Real.zero_rpow (by norm_num)]
      norm_num

/-- The closed form of the Anderson density is a continuous function of the temperature. -/
theorem anderson_clamped_continuous (T0 : ℝ) :
    Continuous (fun T : ℝ => 50 + 1.7 * (min (max (T - T0 + 15) 0) 17) ^ (1.5 : ℝ)) := by
  have hb : Continuous (fun T : ℝ => min (max (T - T0 + 15) 0) 17) := by
    fun_prop
  exact continuous_const.add (continuous_const.mul
    (hb.rpow_const (fun _ => Or.inr (by norm_num))))

/-- C7: on real surface temperatures the Anderson `density()` is a function `f` of the
temperature that is continuous at both breakpoints: at `T0 - 15` the left limit, the right limit
and the value are all `50`, at `T0 + 2` they are all `50 + 1.7*17^1.5`; the literal `17` of the
upper branch is the base `Tskin - T0 + 15` of the middle branch at `Tskin = T0 + 2`. -/
theorem anderson_density_continuous_at_breakpoints (T0 : ℝ) :
    ∃ f : ℝ → ℝ,
      (∀ (T : ℝ) (w a b c : Double),
        SurfaceDensityAnderson.density (val T0) ⟨val T, w, a, b, c⟩ = val (f T)) ∧
      f (T0 - 15) = 50 ∧
      Filter.Tendsto f (nhdsWithin (T0 - 15) (Set.Iio (T0 - 15))) (nhds 50) ∧
      Filter.Tendsto f (nhdsWithin (T0 - 15) (Set.Ioi (T0 - 15))) (nhds 50) ∧
      f (T0 + 2) = 50 + 1.7 * (17 : ℝ) ^ (1.5 : ℝ) ∧
      Filter.Tendsto f (nhdsWithin (T0 + 2) (Set.Iio (T0 + 2)))
        (nhds (50 + 1.7 * (17 : ℝ) ^ (1.5 : ℝ))) ∧
      Filter.Tendsto f (nhdsWithin (T0 + 2) (Set.Ioi (T0 + 2)))
        (nhds (50 + 1.7 * (17 : ℝ) ^ (1.5 : ℝ))) ∧
      ContinuousAt f (T0 - 15) ∧ ContinuousAt f (T0 + 2) ∧
      (T0 + 2) - T0 + 15 = (17 : ℝ) := by
  have hlo : (50 : ℝ) + 1.7 * (min (max (T0 - 15 - T0 + 15) 0) 17) ^ (1.5 : ℝ) = 50 := by
    rw [show T0 - 15 - T0 + 15 = (0 : ℝ) by ring, max_self, min_eq_left (by norm_num),
      Real.zero_rpow (by norm_num)]
    norm_num
  have hhi : (50 : ℝ) + 1.7 * (min (max (T0 + 2 - T0 + 15) 0) 17) ^ (1.5 : ℝ)
      = 50 + 1.7 * (17 : ℝ) ^ (1.5 : ℝ) := by
    rw [show T0 + 2 - T0 + 15 = (17 : ℝ) by ring, max_eq_left (by norm_num), min_self]
  have hc := anderson_clamped_continuous T0
  have c1 : ContinuousAt _ (T0 - 15) := hc.continuousAt
  have c2 : ContinuousAt _ (T0 + 2) := hc.continuousAt
  have t1 := c1.tendsto
  have t2 := c2.tendsto
  simp only [hlo] at t1
  simp only [hhi] at t2
  exact ⟨_, fun T w a b c => anderson_density_clamped T0 T w a b c, hlo,
    t1.mono_left nhdsWithin_le_nhds, t1.mono_left nhdsWithin_le_nhds, hhi,
    t2.mono_left nhdsWithin_le_nhds, t2.mono_left nhdsWithin_le_nhds, c1, c2, by ring⟩

/-! ## AndersonListon -/

/-- The AndersonListon density on a real wind `W ≥ 5`: the Anderson density plus the wind term. -/
theorem andersonListon_density_of_ge (T0 T a b c : Double) (W : ℝ) (hW : 5 ≤ W) :
    SurfaceDensityAndersonListon.density T0 ⟨T, val W, a, b, c⟩
      = SurfaceDensityAnderson.density T0 ⟨T, val W, a, b, c⟩
        + val (25 + 250 * (1 - Real.exp (-0.2 * (W - 5)))) := by
  have h5 : val W ≥ 5. := by
    show val 5. ≤ val W
    rw [Double.val_le_val]
    norm_num
    exact hW
  unfold SurfaceDensityAndersonListon.density
  simp only [if_pos h5]
  simp only [Double.ofScientific_eq, Double.val_sub_val, Double.neg_val, Double.val_mul_val,
    Double.exp_val, Double.val_add_val]
  norm_num

/-- C8: for every surface temperature and every wind speed below 5 (and every other reading of
the provider, every value of `T0`), the AndersonListon `density()` is the Anderson `density()` on
the same meteorology, unchanged. -/
theorem andersonListon_density_low_wind (T0 : Double) (meteo : Meteo)
    (hW : meteo.surfaceWind < 5) :
    SurfaceDensityAndersonListon.density T0 meteo = SurfaceDensityAnderson.density T0 meteo := by
  have h5 : ¬ meteo.surfaceWind ≥ 5. := by
    cases hw : meteo.surfaceWind with
    | nan => exact Double.not_le_nan _
    | val W =>
      rw [hw] at hW
      have hW1 : W < 5 := by simpa using hW
      show ¬ val 5. ≤ val W
      rw [Double.val_le_val]
      norm_num
      exact hW1
  unfold SurfaceDensityAndersonListon.density
  simp only [if_neg h5]

/-- Instance of `andersonListon_density_low_wind` at `T0 = 273.15`, temperature `263.15` and
wind `3`. -/
theorem andersonListon_density_low_wind_witness :
    val 3 < 5 ∧
    SurfaceDensityAndersonListon.density (val 273.15) ⟨val 263.15, val 3, val 0, val 0, val 0⟩
      = SurfaceDensityAnderson.density (val 273.15) ⟨val 263.15, val 3, val 0, val 0, val 0⟩ :=
  have h : val 3 < 5 := by
    simp only [Double.ofNat_eq, Double.val_lt_val]
    norm_num
  ⟨h, andersonListon_density_low_wind (val 273.15) ⟨val 263.15, val 3, val 0, val 0, val 0⟩ h⟩

/-- C9: for every surface temperature (and every other reading, every value of `T0`), at wind
speed exactly 5 the AndersonListon `density()` is the Anderson `density()` on the same
meteorology plus exactly 25. -/
theorem andersonListon_density_wind_five (T0 T a b c : Double) :
    SurfaceDensityAndersonListon.density T0 ⟨T, val 5, a, b, c⟩
      = SurfaceDensityAnderson.density T0 ⟨T, val 5, a, b, c⟩ + val 25 := by
  rw [andersonListon_density_of_ge T0 T a b c 5 le_rfl]
  norm_num

/-- In exact real arithmetic (no rounding), for every wind speed `W ≥ 5` the AndersonListon
density is the Anderson density plus the term `25 + 250*(1 - exp(-0.2*(W - 5)))`, which is
strictly less than 275 and approaches 275 as `W` grows. The binary64 evaluation of the same term
is treated in the section on AndersonListon in binary64. -/
theorem andersonListon_wind_term_lt_275 (T0 T a b c : Double) :
    (∀ W : ℝ, 5 ≤ W →
      SurfaceDensityAndersonListon.density T0 ⟨T, val W, a, b, c⟩
        = SurfaceDensityAnderson.density T0 ⟨T, val W, a, b, c⟩
          + val (25 + 250 * (1 - Real.exp (-0.2 * (W - 5)))) ∧
      25 + 250 * (1 - Real.exp (-0.2 * (W - 5))) < 275) ∧
    (∀ ε : ℝ, 0 < ε → ∃ W0 : ℝ, ∀ W : ℝ, W0 ≤ W →
      5 ≤ W ∧
      SurfaceDensityAndersonListon.density T0 ⟨T, val W, a, b, c⟩
        = SurfaceDensityAnderson.density T0 ⟨T, val W, a, b, c⟩
          + val (25 + 250 * (1 - Real.exp (-0.2 * (W - 5)))) ∧
      275 - ε < 25 + 250 * (1 - Real.exp (-0.2 * (W - 5)))) := by
  constructor
  · intro W hW
    refine ⟨andersonListon_density_of_ge T0 T a b c W hW, ?_⟩
    have := Real.exp_pos (-0.2 * (W - 5))
    linarith
  · intro ε hε
    refine ⟨max 5 (6 - 5 * Real.log (ε / 250)), fun W hW => ?_⟩
    have h5 : 5 ≤ W := le_trans (le_max_left _ _) hW
    have h6 : 6 - 5 * Real.log (ε / 250) ≤ W := le_trans (le_max_right _ _) hW
    refine ⟨h5, andersonListon_density_of_ge T0 T a b c W h5, ?_⟩
    have hpos : 0 < ε / 250 := by positivity
    have hlt : Real.exp (-0.2 * (W - 5)) < ε / 250 := by
      rw [← Real.lt_log_iff_exp_lt hpos]
      linarith
    linarith

/-! ## Slater2016 -/

/-- The hyperbolic tangent lies strictly between `-1` and `1`. -/
theorem real_tanh_bounds (x : ℝ) : -1 < Real.tanh x ∧ Real.tanh x < 1 := by
  constructor
  · rw [Real.tanh_eq_sinh_div_cosh, lt_div_iff₀ (Real.cosh_pos x)]
    have h1 := Real.cosh_add_sinh x
    have h2 := Real.exp_pos x
    linarith
  · rw [Real.tanh_eq_sinh_div_cosh, div_lt_one (Real.cosh_pos x)]
    exact Real.sinh_lt_cosh x

/-- The base `(1 + tanh(W/5))/2` of the wind term lies strictly between `0` and `1`. -/
theorem slater_wind_base_bounds (W : ℝ) :
    0 < (1 + Real.tanh (W / 5)) / 2 ∧ (1 + Real.tanh (W / 5)) / 2 < 1 := by
  have h := real_tanh_bounds (W / 5)
  constructor <;> linarith [h.1, h.2]

/-- The real wind term `266.861 * ((1 + tanh(W/5))/2)^8.8` lies strictly between `0` and
`266.861`. -/
theorem slater_wind_term_real_bounds (W : ℝ) :
    0 < 266.861 * ((1 + Real.tanh (W / 5)) / 2) ^ (8.8 : ℝ) ∧
    266.861 * ((1 + Real.tanh (W / 5)) / 2) ^ (8.8 : ℝ) < 266.861 := by
  have hb := slater_wind_base_bounds W
  have h0 : 0 < ((1 + Real.tanh (W / 5)) / 2) ^ (8.8 : ℝ) := Real.rpow_pos_of_pos hb.1 _
  have h1 : ((1 + Real.tanh (W / 5)) / 2) ^ (8.8 : ℝ) < 1 :=
    Real.rpow_lt_one hb.1.le hb.2 (by norm_num)
  constructor <;> linarith

/-- The wind term of the Slater2016 density on a real wind. -/
theorem slater_wind_term_val (W : ℝ) :
    (266.861 : Double) * pow ((1. + tanh (val W / 5.0)) / 2.) 8.8
      = val (266.861 * ((1 + Real.tanh (W / 5)) / 2) ^ (8.8 : ℝ)) := by
  have h5 : ¬ (OfScientific.ofScientific 50 true 1 : ℝ) = 0 := by norm_num
  have h2 : ¬ (OfScientific.ofScientific 2 true 0 : ℝ) = 0 := by norm_num
  simp only [Double.ofScientific_eq, Double.val_div_val, if_neg h5, if_neg h2, Double.tanh_val,
    Double.val_add_val]
  rw [Double.pow_of_nonneg _ (by norm_num)]
  · simp only [Double.val_mul_val]
    norm_num
  · have h := (slater_wind_base_bounds W).1
    norm_num at h ⊢
    linarith

/-- Upper branch of the Slater2016 density: `Tskin > T0 + 2`. -/
theorem slater_density_hot (T0 T W : ℝ) (a b c : Double) (hT : T0 + 2 < T) :
    SurfaceDensitySlater2016.density (val T0) ⟨val T, val W, a, b, c⟩
      = val (170 + 266.861 * ((1 + Real.tanh (W / 5)) / 2) ^ (8.8 : ℝ)) := by
  unfold SurfaceDensitySlater2016.density
  simp only [slater_wind_term_val]
  simp only [Double.ofScientific_eq, Double.ofNat_eq, Double.val_sub_val, Double.val_add_val,
    gt_iff_lt, Double.val_lt_val]
  norm_num
  rw [if_pos hT]
  rfl

/-- Middle branch of the Slater2016 density: `T0 - 15 < Tskin` and not `Tskin > T0 + 2`. -/
theorem slater_density_mid (T0 T W : ℝ) (a b c : Double) (h1 : T0 - 15 < T) (h2 : T ≤ T0 + 2) :
    SurfaceDensitySlater2016.density (val T0) ⟨val T, val W, a, b, c⟩
      = val (50 + 1.7 * (T - T0 + 15) ^ (1.5 : ℝ)
          + 266.861 * ((1 + Real.tanh (W / 5)) / 2) ^ (8.8 : ℝ)) := by
  unfold SurfaceDensitySlater2016.density
  simp only [slater_wind_term_val]
  simp only [Double.ofScientific_eq, Double.ofNat_eq, Double.val_sub_val, Double.val_add_val,
    gt_iff_lt, Double.val_lt_val]
  norm_num
  rw [if_neg (not_lt.mpr h2), if_pos h1, Double.pow_of_nonneg (by linarith) (by norm_num)]
  rfl

/-- Lower branch of the Slater2016 density: `Tskin <= T0 - 15`. -/
theorem slater_density_cold (T0 T W : ℝ) (a b c : Double) (hT : T ≤ T0 - 15) :
    SurfaceDensitySlater2016.density (val T0) ⟨val T, val W, a, b, c⟩
      = val (-3.8333 * (T - T0) - 0.0333 * (T - T0) ^ 2
          + 266.861 * ((1 + Real.tanh (W / 5)) / 2) ^ (8.8 : ℝ)) := by
  unfold SurfaceDensitySlater2016.density
  simp only [slater_wind_term_val]
  simp only [Double.ofScientific_eq, Double.ofNat_eq, Double.val_sub_val, Double.val_add_val,
    gt_iff_lt, Double.val_lt_val]
  norm_num
  rw [if_neg (not_lt.mpr (by linarith : T ≤ T0 + 2)), if_neg (not_lt.mpr hT)]
  have hp : pow (val (T - T0)) (val 2) = val ((T - T0) ^ 2) := by
    rw [Double.pow_val_val, if_neg (fun h => h.2 ⟨2, by norm_num⟩),
      if_neg (fun h => absurd h.2 (by norm_num)), Real.rpow_two]
  rw [hp]
  simp only [Double.neg_val, Double.val_mul_val, Double.val_sub_val, Double.val_add_val]

/-- The Slater2016 density on real readings: the temperature branch plus the wind term. -/
theorem slater_density_val (T0 T W : ℝ) (a b c : Double) :
    SurfaceDensitySlater2016.density (val T0) ⟨val T, val W, a, b, c⟩
      = val ((if T0 + 2 < T then 170
              else if T0 - 15 < T then 50 + 1.7 * (T - T0 + 15) ^ (1.5 : ℝ)
              else -3.8333 * (T - T0) - 0.0333 * (T - T0) ^ 2)
          + 266.861 * ((1 + Real.tanh (W / 5)) / 2) ^ (8.8 : ℝ)) := by
  rcases lt_or_le (T0 + 2) T with h | h
  · rw [slater_density_hot T0 T W a b c h, if_pos h]
  · rcases lt_or_le (T0 - 15) T with h1 | h1
    · rw [slater_density_mid T0 T W a b c h1 h, if_neg (not_lt.mpr h), if_pos h1]
    · rw [slater_density_cold T0 T W a b c h1, if_neg (not_lt.mpr h), if_neg (not_lt.mpr h1)]

/-- The power `17^1.5` is `17 * sqrt 17`, between `17 * 4.1231` and `17 * 4.1232`. -/
theorem seventeen_rpow_bounds :
    17 * 4.1231 < (17 : ℝ) ^ (1.5 : ℝ) ∧ (17 : ℝ) ^ (1.5 : ℝ) < 17 * 4.1232 := by
  have he : (17 : ℝ) ^ (1.5 : ℝ) = 17 * Real.sqrt 17 := by
    rw [Real.sqrt_eq_rpow, show (1.5 : ℝ) = 1 + 1 / 2 by norm_num,
      Real.rpow_add (by norm_num), Real.rpow_one]
  have h1 : (4.1231 : ℝ) < Real.sqrt 17 := by
    rw [Real.lt_sqrt (by norm_num)]
    norm_num
  have h2 : Real.sqrt 17 < 4.1232 := by
    rw [Real.sqrt_lt' (by norm_num)]
    norm_num
  rw [he]
  constructor <;> linarith

/-- C11: for every surface temperature, at wind speed 0 the Slater2016 `density()` is its
temperature-branch value plus the wind term `266.861 * 0.5^8.8`, and that term is strictly
positive. -/
theorem slater_density_zero_wind (T0 T : ℝ) (a b c : Double) :
    SurfaceDensitySlater2016.density (val T0) ⟨val T, val 0, a, b, c⟩
      = val ((if T0 + 2 < T then 170
              else if T0 - 15 < T then 50 + 1.7 * (T - T0 + 15) ^ (1.5 : ℝ)
              else -3.8333 * (T - T0) - 0.0333 * (T - T0) ^ 2)
          + 266.861 * (0.5 : ℝ) ^ (8.8 : ℝ)) ∧
    (0 : ℝ) < 266.861 * (0.5 : ℝ) ^ (8.8 : ℝ) := by
  constructor
  · rw [slater_density_val T0 T 0 a b c, zero_div, Real.tanh_zero]
    norm_num
  · have h : (0 : ℝ) < (0.5 : ℝ) ^ (8.8 : ℝ) := Real.rpow_pos_of_pos (by norm_num) _
    linarith

/-- C13: for every wind speed `W`, the temperature term of the Slater2016 `density()` (the density
minus the wind term) is `50 + 1.7*17^1.5` at `T_sfc = T0 + 2`, which is not `170`; it is
`-3.8333*(-15) - 0.0333*(-15)^2` at `T_sfc = T0 - 15`; and it is `170` for every
`T_sfc > T0 + 2`. -/
theorem slater_temperature_term_boundaries (T0 W : ℝ) (a b c : Double) :
    SurfaceDensitySlater2016.density (val T0) ⟨val (T0 + 2), val W, a, b, c⟩
      = val (50 + 1.7 * (17 : ℝ) ^ (1.5 : ℝ)
          + 266.861 * ((1 + Real.tanh (W / 5)) / 2) ^ (8.8 : ℝ)) ∧
    (50 + 1.7 * (17 : ℝ) ^ (1.5 : ℝ) ≠ 170) ∧
    SurfaceDensitySlater2016.density (val T0) ⟨val (T0 - 15), val W, a, b, c⟩
      = val (-3.8333 * (-15) - 0.0333 * (-15) ^ 2
          + 266.861 * ((1 + Real.tanh (W / 5)) / 2) ^ (8.8 : ℝ)) ∧
    (∀ T : ℝ, T0 + 2 < T →
      SurfaceDensitySlater2016.density (val T0) ⟨val T, val W, a, b, c⟩
        = val (170 + 266.861 * ((1 + Real.tanh (W / 5)) / 2) ^ (8.8 : ℝ))) := by
  refine ⟨?_, ?_, ?_, fun T hT => slater_density_hot T0 T W a b c hT⟩
  · rw [slater_density_mid T0 (T0 + 2) W a b c (by linarith) le_rfl,
      show T0 + 2 - T0 + 15 = (17 : ℝ) by ring]
  · have h := seventeen_rpow_bounds.2
    intro hc
    linarith
  · rw [slater_density_cold T0 (T0 - 15) W a b c le_rfl,
      show T0 - 15 - T0 = (-15 : ℝ) by ring]

/-- Instance of `slater_temperature_term_boundaries`: with `T0 = 273.15` and wind `3`, the
temperature term at `T0 + 3` is `170`. -/
theorem slater_temperature_term_boundaries_witness :
    (273.15 : ℝ) + 2 < 273.15 + 3 ∧
    SurfaceDensitySlater2016.density (val 273.15)
        ⟨val (273.15 + 3), val 3, val 0, val 0, val 0⟩
      = val (170 + 266.861 * ((1 + Real.tanh (3 / 5)) / 2) ^ (8.8 : ℝ)) :=
  ⟨by norm_num,
    (slater_temperature_term_boundaries 273.15 3 (val 0) (val 0) (val 0)).2.2.2 (273.15 + 3)
      (by norm_num)⟩

/-! ## Helsen2008 and Lenaerts2012 -/

/-- C14: on real annual readings the Helsen2008 `density()` is
`-154.91 + 1.4266*(73.6 + 1.06*T_ann + 0.0669*Acc_ann + 4.77*W10_ann)`, whatever the surface
temperature and surface wind; two meteorology states that agree on `annualTskin`, `annualAcc` and
`annualW10m` give the same density. -/
theorem helsen_density_annual_only :
    (∀ (Tann Acc W10 : ℝ) (T W : Double),
      SurfaceDensityHelsen2008.density ⟨T, W, val Tann, val Acc, val W10⟩
        = val (-154.91 + 1.4266 * (73.6 + 1.06 * Tann + 0.0669 * Acc + 4.77 * W10))) ∧
    (∀ m1 m2 : Meteo, m1.annualTskin = m2.annualTskin → m1.annualAcc = m2.annualAcc →
      m1.annualW10m = m2.annualW10m →
      SurfaceDensityHelsen2008.density m1 = SurfaceDensityHelsen2008.density m2) := by
  constructor
  · intro Tann Acc W10 T W
    simp only [SurfaceDensityHelsen2008.density, Double.ofScientific_eq, Double.neg_val,
      Double.val_mul_val, Double.val_add_val]
  · intro m1 m2 h1 h2 h3
    simp only [SurfaceDensityHelsen2008.density, h1, h2, h3]

/-- Instance of `helsen_density_annual_only`: two states with the same annual readings and
different surface temperature and wind give the same density. -/
theorem helsen_density_annual_only_witness :
    SurfaceDensityHelsen2008.density ⟨val 250, val 3, val 240, val 100, val 6⟩
      = SurfaceDensityHelsen2008.density ⟨val 270, val 12, val 240, val 100, val 6⟩ :=
  helsen_density_annual_only.2 ⟨val 250, val 3, val 240, val 100, val 6⟩
    ⟨val 270, val 12, val 240, val 100, val 6⟩ rfl rfl rfl

/-- C15: on real surface readings the Lenaerts2012 `density()` is
`97.5 + 0.77*T_sfc + 4.49*W_sfc`, with the surface temperature as returned by the provider (the
constant `T0` does not enter, also through the virtual call), whatever the annual readings; two
meteorology states that agree on `surfaceTemperature` and `surfaceWind` give the same density. -/
theorem lenaerts_density_linear :
    (∀ (T W : ℝ) (a b c : Double),
      SurfaceDensityLenaerts2012.density ⟨val T, val W, a, b, c⟩
        = val (97.5 + 0.77 * T + 4.49 * W)) ∧
    (∀ (T0 : Double) (m : Meteo),
      SurfaceDensity.density T0 m .Lenaerts2012 = SurfaceDensityLenaerts2012.density m) ∧
    (∀ m1 m2 : Meteo, m1.surfaceTemperature = m2.surfaceTemperature →
      m1.surfaceWind = m2.surfaceWind →
      SurfaceDensityLenaerts2012.density m1 = SurfaceDensityLenaerts2012.density m2) := by
  refine ⟨?_, fun _ _ => rfl, ?_⟩
  · intro T W a b c
    simp only [SurfaceDensityLenaerts2012.density, Double.ofScientific_eq, Double.val_mul_val,
      Double.val_add_val]
  · intro m1 m2 h1 h2
    simp only [SurfaceDensityLenaerts2012.density, h1, h2]

/-- Instance of `lenaerts_density_linear`: two states with the same surface readings and
different annual readings give the same density. -/
theorem lenaerts_density_linear_witness :
    SurfaceDensityLenaerts2012.density ⟨val 250, val 3, val 240, val 100, val 6⟩
      = SurfaceDensityLenaerts2012.density ⟨val 250, val 3, val 230, val 50, val 9⟩ :=
  lenaerts_density_linear.2.2 ⟨val 250, val 3, val 240, val 100, val 6⟩
    ⟨val 250, val 3, val 230, val 50, val 9⟩ rfl rfl

/-! ## The cold branch of Slater2016 -/

/-- C16, at the failing input: with `T0 = 273.15`, for every wind speed, the Slater2016
`density()` at surface temperature `203.15` (`-70` C) is strictly less than at `213.15`
(`-60` C): below the vertex of the cold-branch quadratic the density goes down as it gets
colder. -/
theorem slater_density_decreases_in_deep_cold (W : ℝ) :
    (203.15 : ℝ) < 213.15 ∧ (213.15 : ℝ) ≤ 273.15 - 15 ∧
    SurfaceDensitySlater2016.density (val 273.15) ⟨val 203.15, val W, val 0, val 0, val 0⟩
      < SurfaceDensitySlater2016.density (val 273.15) ⟨val 213.15, val W, val 0, val 0, val 0⟩ := by
  refine ⟨by norm_num, by norm_num, ?_⟩
  rw [slater_density_cold 273.15 203.15 W _ _ _ (by norm_num),
    slater_density_cold 273.15 213.15 W _ _ _ (by norm_num), Double.val_lt_val]
  norm_num

/-- Above the vertex of the cold-branch quadratic, at `T0 - 3.8333/0.0666`, the Slater2016
density goes up as it gets colder. -/
theorem slater_density_increases_in_cold (T0 T1 T2 W : ℝ) (a b c : Double)
    (hv : T0 - 3.8333 / 0.0666 ≤ T1) (h12 : T1 < T2) (h2 : T2 ≤ T0 - 15) :
    SurfaceDensitySlater2016.density (val T0) ⟨val T2, val W, a, b, c⟩
      < SurfaceDensitySlater2016.density (val T0) ⟨val T1, val W, a, b, c⟩ := by
  rw [slater_density_cold T0 T1 W a b c (by linarith), slater_density_cold T0 T2 W a b c h2,
    Double.val_lt_val]
  have hv1 : -3.8333 ≤ 0.0666 * (T1 - T0) := by
    norm_num at hv ⊢
    linarith
  nlinarith [mul_pos (sub_pos.mpr h12) (sub_pos.mpr h12)]

/-! ## Range of the Anderson density -/

/-- C17, as stated, fails: with `T0 = 273.15` the Anderson `density()` at `T_sfc = T0 + 2` is
`50 + 1.7*17^1.5`, and the distance of that number from `169.22` is more than `0.005` (it is more
than `0.05`). -/
theorem anderson_saturated_value_not_169_22 :
    SurfaceDensityAnderson.density (val 273.15) ⟨val (273.15 + 2), val 0, val 0, val 0, val 0⟩
      = val (50 + 1.7 * (17 : ℝ) ^ (1.5 : ℝ)) ∧
    ¬ |50 + 1.7 * (17 : ℝ) ^ (1.5 : ℝ) - 169.22| < 0.005 ∧
    0.05 < |50 + 1.7 * (17 : ℝ) ^ (1.5 : ℝ) - 169.22| := by
  have h := seventeen_rpow_bounds.2
  have hneg : 50 + 1.7 * (17 : ℝ) ^ (1.5 : ℝ) - 169.22 < -0.05 := by linarith
  have habs : 0.05 < |50 + 1.7 * (17 : ℝ) ^ (1.5 : ℝ) - 169.22| := by
    rw [abs_of_neg (by linarith)]
    linarith
  refine ⟨?_, fun hc => ?_, habs⟩
  · rw [anderson_density_mid 273.15 (273.15 + 2) _ _ _ _ (by norm_num) le_rfl]
    norm_num
  · linarith

/-- C17 (amended): the saturated upper value of the Anderson `density()`, `50 + 1.7*17^1.5`,
returned at `T_sfc = T0 + 2` and above, is approximately `169.16`: its distance from `169.16` is
below `0.005`. -/
theorem anderson_saturated_value_approx (T0 : ℝ) (w a b c : Double) :
    (∀ T : ℝ, T0 + 2 ≤ T →
      SurfaceDensityAnderson.density (val T0) ⟨val T, w, a, b, c⟩
        = val (50 + 1.7 * (17 : ℝ) ^ (1.5 : ℝ))) ∧
    |50 + 1.7 * (17 : ℝ) ^ (1.5 : ℝ) - 169.16| < 0.005 := by
  constructor
  · intro T hT
    rcases hT.lt_or_eq with h | h
    · exact anderson_density_hot T0 T w a b c h
    · rw [← h, anderson_density_mid T0 (T0 + 2) w a b c (by linarith) le_rfl,
        show T0 + 2 - T0 + 15 = (17 : ℝ) by ring]
  · have h := seventeen_rpow_bounds
    rw [abs_lt]
    constructor <;> linarith [h.1, h.2]

/-- Instance of `anderson_saturated_value_approx`: with `T0 = 273.15`, the density at `T0 + 2` is
the saturated value, within `0.005` of `169.16`. -/
theorem anderson_saturated_value_approx_witness :
    (273.15 : ℝ) + 2 ≤ 273.15 + 2 ∧
    SurfaceDensityAnderson.density (val 273.15) ⟨val (273.15 + 2), val 0, val 0, val 0, val 0⟩
      = val (50 + 1.7 * (17 : ℝ) ^ (1.5 : ℝ)) ∧
    |50 + 1.7 * (17 : ℝ) ^ (1.5 : ℝ) - 169.16| < 0.005 :=
  ⟨le_rfl,
    (anderson_saturated_value_approx 273.15 (val 0) (val 0) (val 0) (val 0)).1 (273.15 + 2) le_rfl,
    (anderson_saturated_value_approx 273.15 (val 0) (val 0) (val 0) (val 0)).2⟩

/-- The Anderson density on a surface temperature that is `nan`: both tests are false and the
floor is returned. -/
theorem anderson_density_nan (T0 : ℝ) (w a b c : Double) :
    SurfaceDensityAnderson.density (val T0) ⟨nan, w, a, b, c⟩ = val 50 := by
  have h1 : ¬ (nan : Double) > val T0 + 2 := Double.not_lt_nan _
  have h2 : ¬ val T0 - 15. < (nan : Double) := Double.not_lt_nan _
  unfold SurfaceDensityAnderson.density
  simp only [if_neg h1, if_neg h2, Double.ofScientific_eq]
  norm_num

/-- C18: for every surface temperature (`nan` included) the Anderson `density()` is a number
between its floor and its saturated upper value, `50 ≤ density ≤ 50 + 1.7*17^1.5`; the floor
`50` is attained for every `T_sfc ≤ T0 - 15`. -/
theorem anderson_density_range (T0 : ℝ) (w a b c : Double) :
    (∀ T : Double, ∃ r : ℝ,
      SurfaceDensityAnderson.density (val T0) ⟨T, w, a, b, c⟩ = val r ∧
      50 ≤ r ∧ r ≤ 50 + 1.7 * (17 : ℝ) ^ (1.5 : ℝ)) ∧
    (∀ T : ℝ, T ≤ T0 - 15 →
      SurfaceDensityAnderson.density (val T0) ⟨val T, w, a, b, c⟩ = val 50) := by
  refine ⟨fun T => ?_, fun T hT => anderson_density_cold T0 T w a b c hT⟩
  have h17 : (0 : ℝ) ≤ (17 : ℝ) ^ (1.5 : ℝ) := Real.rpow_nonneg (by norm_num) _
  cases T with
  | nan => exact ⟨50, anderson_density_nan T0 w a b c, le_rfl, by linarith⟩
  | val T =>
    refine ⟨_, anderson_density_clamped T0 T w a b c, ?_, ?_⟩
    · have h : (0 : ℝ) ≤ (min (max (T - T0 + 15) 0) 17) ^ (1.5 : ℝ) :=
        Real.rpow_nonneg (le_min (le_max_right _ _) (by norm_num)) _
      linarith
    · have h : (min (max (T - T0 + 15) 0) 17) ^ (1.5 : ℝ) ≤ (17 : ℝ) ^ (1.5 : ℝ) :=
        Real.rpow_le_rpow (le_min (le_max_right _ _) (by norm_num)) (min_le_right _ _)
          (by norm_num)
      linarith

/-- Instance of `anderson_density_range`: with `T0 = 273.15`, the density at `T0 - 40` is the
floor `50`. -/
theorem anderson_density_range_witness :
    (273.15 - 40 : ℝ) ≤ 273.15 - 15 ∧
    SurfaceDensityAnderson.density (val 273.15) ⟨val (273.15 - 40), val 0, val 0, val 0, val 0⟩
      = val 50 :=
  ⟨by norm_num,
    (anderson_density_range 273.15 (val 0) (val 0) (val 0) (val 0)).2 (273.15 - 40)
      (by norm_num)⟩

/-! ## Domain of the fractional power -/

/-- C19: whenever the middle temperature branch of the Anderson or of the Slater2016 `density()`
is taken (`T0 - 15 < Tskin` and not `Tskin > T0 + 2`), the base `Tskin - T0 + 15` passed to
`pow(., 1.5)` is a number that is strictly positive and at most 17, `pow` returns its real power
(no domain error), and both densities are computed from that power. -/
theorem middle_branch_pow_base (T0 Tskin : Double) (h1 : ¬ Tskin > T0 + 2)
    (h2 : T0 - 15. < Tskin) :
    ∃ base : ℝ, Tskin - T0 + 15 = val base ∧ 0 < base ∧ base ≤ 17 ∧
      pow (Tskin - T0 + 15) 1.5 = val (base ^ (1.5 : ℝ)) ∧
      (∀ w a b c : Double, SurfaceDensityAnderson.density T0 ⟨Tskin, w, a, b, c⟩
        = val (50 + 1.7 * base ^ (1.5 : ℝ))) ∧
      (∀ w a b c : Double, SurfaceDensitySlater2016.density T0 ⟨Tskin, w, a, b, c⟩
        = val (50 + 1.7 * base ^ (1.5 : ℝ))
          + 266.861 * pow ((1. + tanh (w / 5.0)) / 2.) 8.8) := by
  cases T0 with
  | nan => exact absurd h2 (Double.not_nan_lt _)
  | val t0 =>
    cases Tskin with
    | nan => exact absurd h2 (Double.not_lt_nan _)
    | val T =>
      have h1r : T ≤ t0 + 2 := by
        have h : ¬ val t0 + 2 < val T := h1
        simp only [Double.ofNat_eq, Double.val_add_val, Double.val_lt_val, not_lt] at h
        exact h
      have h2r : t0 - 15 < T := by
        have h := h2
        simp only [Double.ofScientific_eq, Double.val_sub_val, Double.val_lt_val] at h
        norm_num at h
        exact h
      have hb : val T - val t0 + 15 = val (T - t0 + 15) := by
        simp only [Double.ofNat_eq, Double.val_sub_val, Double.val_add_val]
      have hp : pow (val T - val t0 + 15) 1.5 = val ((T - t0 + 15) ^ (1.5 : ℝ)) := by
        have hnn : 0 ≤ T - t0 + 15 := by linarith only [h2r]
        rw [hb, Double.ofScientific_eq, Double.pow_of_nonneg hnn (by norm_num)]
      refine ⟨T - t0 + 15, hb, by linarith only [h2r], by linarith only [h1r], hp,
        fun w a b c => ?_,
        fun w a b c => ?_⟩
      · exact anderson_density_mid t0 T w a b c h2r h1r
      · unfold SurfaceDensitySlater2016.density
        simp only [if_neg h1, if_pos h2, hp]
        simp only [Double.ofScientific_eq, Double.val_mul_val, Double.val_add_val]
        norm_num

/-- Instance of `middle_branch_pow_base` at `T0 = 273.15` and surface temperature `268.15`. -/
theorem middle_branch_pow_base_witness :
    ¬ val 268.15 > val 273.15 + 2 ∧ val 273.15 - 15. < val 268.15 ∧
    ∃ base : ℝ, val 268.15 - val 273.15 + 15 = val base ∧ 0 < base ∧ base ≤ 17 ∧
      pow (val 268.15 - val 273.15 + 15) 1.5 = val (base ^ (1.5 : ℝ)) :=
  have h1 : ¬ val 268.15 > val 273.15 + 2 := by
    simp only [gt_iff_lt, Double.ofNat_eq, Double.val_add_val, Double.val_lt_val]
    norm_num
  have h2 : val 273.15 - 15. < val 268.15 := by
    simp only [Double.ofScientific_eq, Double.val_sub_val, Double.val_lt_val]
    norm_num
  let ⟨base, hb, h0, h17, hp, _⟩ := middle_branch_pow_base (val 273.15) (val 268.15) h1 h2
  ⟨h1, h2, base, hb, h0, h17, hp⟩

/-! ## Positivity of the Slater2016 density -/

/-- C20: for every wind speed and every surface temperature `T_sfc ≥ T0 - 115`, the Slater2016
`density()` is a strictly positive number. -/
theorem slater_density_pos (T0 T W : ℝ) (a b c : Double) (hT : T0 - 115 ≤ T) :
    ∃ r : ℝ, SurfaceDensitySlater2016.density (val T0) ⟨val T, val W, a, b, c⟩ = val r ∧
      0 < r := by
  have hw := (slater_wind_term_real_bounds W).1
  rcases lt_or_le (T0 + 2) T with h | h
  · exact ⟨_, slater_density_hot T0 T W a b c h, by linarith⟩
  · rcases lt_or_le (T0 - 15) T with h1 | h1
    · refine ⟨_, slater_density_mid T0 T W a b c h1 h, ?_⟩
      have hp : (0 : ℝ) ≤ (T - T0 + 15) ^ (1.5 : ℝ) := Real.rpow_nonneg (by linarith) _
      linarith
    · refine ⟨_, slater_density_cold T0 T W a b c h1, ?_⟩
      have hq : 0 ≤ -3.8333 * (T - T0) - 0.0333 * (T - T0) ^ 2 := by
        nlinarith [mul_nonneg (by linarith : (0 : ℝ) ≤ T0 - 15 - T)
          (by linarith : (0 : ℝ) ≤ T - (T0 - 115))]
      linarith

/-- Instance of `slater_density_pos` at `T0 = 273.15`, surface temperature `173.15` and
wind `0`. -/
theorem slater_density_pos_witness :
    (273.15 - 115 : ℝ) ≤ 173.15 ∧
    ∃ r : ℝ, SurfaceDensitySlater2016.density (val 273.15)
      ⟨val 173.15, val 0, val 0, val 0, val 0⟩ = val r ∧ 0 < r :=
  ⟨by norm_num, slater_density_pos 273.15 173.15 0 (val 0) (val 0) (val 0) (by norm_num)⟩

/-! ## Rounding to binary64 -/

theorem roundNearestEven_bounds (y : ℝ) :
    ⌊y⌋ ≤ roundNearestEven y ∧ roundNearestEven y ≤ ⌊y⌋ + 1 := by
  unfold roundNearestEven
  split_ifs <;> constructor <;> omega

theorem roundNearestEven_intCast (n : ℤ) : roundNearestEven (n : ℝ) = n := by
  unfold roundNearestEven
  rw [Int.floor_intCast, sub_self, if_pos (by norm_num)]

theorem roundNearestEven_mono {y1 y2 : ℝ} (h : y1 ≤ y2) :
    roundNearestEven y1 ≤ roundNearestEven y2 := by
  have hf : ⌊y1⌋ ≤ ⌊y2⌋ := Int.floor_mono h
  rcases hf.lt_or_eq with hlt | heq
  · have h1 := (roundNearestEven_bounds y1).2
    have h2 := (roundNearestEven_bounds y2).1
    omega
  · unfold roundNearestEven
    rw [heq]
    have hd : y1 - ⌊y2⌋ ≤ y2 - ⌊y2⌋ := by linarith
    split_ifs <;> first | omega | (exfalso; linarith)

theorem roundNearestEven_neg (y : ℝ) : roundNearestEven (-y) = -roundNearestEven y := by
  by_cases hy : (⌊y⌋ : ℝ) = y
  · rw [← hy, ← Int.cast_neg, roundNearestEven_intCast, roundNearestEven_intCast]
  · have hlt : (⌊y⌋ : ℝ) < y := lt_of_le_of_ne (Int.floor_le y) hy
    have hfl : ⌊-y⌋ = -⌊y⌋ - 1 := by
      rw [Int.floor_eq_iff]
      have := Int.lt_floor_add_one y
      push_cast
      constructor <;> linarith
    unfold roundNearestEven
    rw [hfl]
    push_cast
    have hpar : Even (-⌊y⌋ - 1) ↔ ¬ Even ⌊y⌋ := by
      rw [Int.even_sub, even_neg]
      simp
    simp only [hpar]
    split_ifs <;> first | omega | (exfalso; linarith)

theorem ulpExponent_neg (x : ℝ) : ulpExponent (-x) = ulpExponent x := by
  unfold ulpExponent
  rw [abs_neg]

theorem roundBinary64_zero : roundBinary64 0 = 0 := by
  unfold roundBinary64
  rw [zero_div, ← Int.cast_zero, roundNearestEven_intCast, Int.cast_zero, zero_mul]

theorem roundBinary64_neg (x : ℝ) : roundBinary64 (-x) = -roundBinary64 x := by
  unfold roundBinary64
  rw [ulpExponent_neg, neg_div, roundNearestEven_neg, Int.cast_neg, neg_mul]

theorem two_zpow_pos (k : ℤ) : (0 : ℝ) < (2 : ℝ) ^ k := zpow_pos (by norm_num) k

theorem roundBinary64_nonneg {x : ℝ} (hx : 0 ≤ x) : 0 ≤ roundBinary64 x := by
  unfold roundBinary64
  have h0 : (0 : ℝ) ≤ x / (2 : ℝ) ^ ulpExponent x := div_nonneg hx (two_zpow_pos _).le
  have h1 := roundNearestEven_mono h0
  rw [← Int.cast_zero, roundNearestEven_intCast] at h1
  exact mul_nonneg (Int.cast_nonneg.mpr h1) (two_zpow_pos _).le

/-- Every real number lies below `2^(ulpExponent x + 53)` in absolute value. -/
theorem abs_lt_two_zpow (x : ℝ) : |x| < (2 : ℝ) ^ (ulpExponent x + 53) := by
  have h1 : |x| < ((2 : ℕ) : ℝ) ^ (Int.log 2 |x| + 1) :=
    Int.lt_zpow_succ_log_self (by norm_num) |x|
  have h2 : ((2 : ℕ) : ℝ) ^ (Int.log 2 |x| + 1) ≤ (2 : ℝ) ^ (ulpExponent x + 53) := by
    rw [Nat.cast_ofNat]
    apply zpow_le_zpow_right₀ (by norm_num)
    unfold ulpExponent
    have := le_max_left (Int.log 2 |x|) (-1022)
    omega
  exact lt_of_lt_of_le h1 h2

theorem roundBinary64_dyadic (n k : ℤ) (hk : -1074 ≤ k) (hn : |n| < 2 ^ 53) :
    roundBinary64 ((n : ℝ) * (2 : ℝ) ^ k) = (n : ℝ) * (2 : ℝ) ^ k := by
  by_cases h0 : n = 0
  · rw [h0, Int.cast_zero, zero_mul, roundBinary64_zero]
  have hxpos : 0 < |(n : ℝ) * (2 : ℝ) ^ k| := by
    rw [abs_pos]
    exact mul_ne_zero (Int.cast_ne_zero.mpr h0) (two_zpow_pos k).ne'
  have hlt : |(n : ℝ) * (2 : ℝ) ^ k| < ((2 : ℕ) : ℝ) ^ (53 + k) := by
    rw [abs_mul, abs_of_pos (two_zpow_pos k), Nat.cast_ofNat, zpow_add₀ (by norm_num)]
    apply mul_lt_mul_of_pos_right _ (two_zpow_pos k)
    have hn1 : |(n : ℝ)| < (2 : ℝ) ^ (53 : ℕ) := by exact_mod_cast hn
    rw [show ((53 : ℤ)) = ((53 : ℕ) : ℤ) by norm_num, zpow_natCast]
    exact hn1
  have hlog : Int.log 2 |(n : ℝ) * (2 : ℝ) ^ k| < 53 + k :=
    (Int.lt_zpow_iff_log_lt (by norm_num) hxpos).mp hlt
  have hu : ulpExponent ((n : ℝ) * (2 : ℝ) ^ k) ≤ k := by
    unfold ulpExponent
    have hmax : max (Int.log 2 |(n : ℝ) * (2 : ℝ) ^ k|) (-1022) ≤ k + 52 :=
      max_le (by omega) (by omega)
    omega
  obtain ⟨m, hm⟩ := Int.eq_ofNat_of_zero_le (sub_nonneg.mpr hu)
  unfold roundBinary64
  have hq : (n : ℝ) * (2 : ℝ) ^ k / (2 : ℝ) ^ ulpExponent ((n : ℝ) * (2 : ℝ) ^ k)
      = ((n * 2 ^ m : ℤ) : ℝ) := by
    rw [mul_div_assoc, ← zpow_sub₀ (by norm_num), hm, zpow_natCast]
    push_cast
    ring
  rw [hq, roundNearestEven_intCast]
  push_cast
  rw [mul_assoc, ← zpow_natCast, ← hm, ← zpow_add₀ (by norm_num)]
  congr 2
  ring

theorem intCast_two_pow_53 : (((2 : ℤ) ^ 53 : ℤ) : ℝ) = (2 : ℝ) ^ (53 : ℤ) := by norm_num

theorem intCast_two_pow_52 : (((2 : ℤ) ^ 52 : ℤ) : ℝ) = (2 : ℝ) ^ (52 : ℤ) := by norm_num

theorem roundBinary64_intCast (n : ℤ) (hn : |n| < 2 ^ 53) : roundBinary64 (n : ℝ) = n := by
  have h := roundBinary64_dyadic n 0 (by norm_num) hn
  rwa [zpow_zero, mul_one] at h

/-- A non-negative number rounds to at most `2^(ulpExponent x + 53)`. -/
theorem roundBinary64_le_two_zpow {x : ℝ} (hx : 0 ≤ x) :
    roundBinary64 x ≤ (2 : ℝ) ^ (ulpExponent x + 53) := by
  have hlt := abs_lt_two_zpow x
  rw [abs_of_nonneg hx] at hlt
  have hq : x / (2 : ℝ) ^ ulpExponent x ≤ (((2 : ℤ) ^ 53 : ℤ) : ℝ) := by
    rw [div_le_iff₀ (two_zpow_pos _), intCast_two_pow_53, ← zpow_add₀ (by norm_num), add_comm]
    exact hlt.le
  have hr := roundNearestEven_mono hq
  rw [roundNearestEven_intCast] at hr
  have hr1 : (roundNearestEven (x / (2 : ℝ) ^ ulpExponent x) : ℝ) ≤ (2 : ℝ) ^ (53 : ℤ) := by
    rw [← intCast_two_pow_53]
    exact Int.cast_le.mpr hr
  unfold roundBinary64
  calc (roundNearestEven (x / (2 : ℝ) ^ ulpExponent x) : ℝ) * (2 : ℝ) ^ ulpExponent x
      ≤ (2 : ℝ) ^ (53 : ℤ) * (2 : ℝ) ^ ulpExponent x :=
        mul_le_mul_of_nonneg_right hr1 (two_zpow_pos _).le
    _ = (2 : ℝ) ^ (ulpExponent x + 53) := by
        rw [← zpow_add₀ (by norm_num), add_comm]

/-- A positive number in the normal range rounds to at least the power of two below it. -/
theorem two_zpow_le_roundBinary64 {x : ℝ} (hx : 0 < x) (hn : -1022 ≤ Int.log 2 |x|) :
    (2 : ℝ) ^ (ulpExponent x + 52) ≤ roundBinary64 x := by
  have hu : ulpExponent x + 52 = Int.log 2 |x| := by
    unfold ulpExponent
    rw [max_eq_left hn]
    ring
  have hle : ((2 : ℕ) : ℝ) ^ Int.log 2 |x| ≤ |x| :=
    Int.zpow_log_le_self (by norm_num) (abs_pos.mpr hx.ne')
  rw [← hu, abs_of_pos hx, Nat.cast_ofNat] at hle
  have hq : (((2 : ℤ) ^ 52 : ℤ) : ℝ) ≤ x / (2 : ℝ) ^ ulpExponent x := by
    rw [le_div_iff₀ (two_zpow_pos _), intCast_two_pow_52, ← zpow_add₀ (by norm_num), add_comm]
    exact hle
  have hr := roundNearestEven_mono hq
  rw [roundNearestEven_intCast] at hr
  have hr1 : (2 : ℝ) ^ (52 : ℤ) ≤ (roundNearestEven (x / (2 : ℝ) ^ ulpExponent x) : ℝ) := by
    rw [← intCast_two_pow_52]
    exact Int.cast_le.mpr hr
  unfold roundBinary64
  calc (2 : ℝ) ^ (ulpExponent x + 52)
      = (2 : ℝ) ^ (52 : ℤ) * (2 : ℝ) ^ ulpExponent x := by
        rw [← zpow_add₀ (by norm_num), add_comm]
    _ ≤ (roundNearestEven (x / (2 : ℝ) ^ ulpExponent x) : ℝ) * (2 : ℝ) ^ ulpExponent x :=
        mul_le_mul_of_nonneg_right hr1 (two_zpow_pos _).le

theorem ulpExponent_mono {x y : ℝ} (hx : 0 < x) (hxy : x ≤ y) :
    ulpExponent x ≤ ulpExponent y := by
  unfold ulpExponent
  have h : Int.log 2 |x| ≤ Int.log 2 |y| := by
    rw [abs_of_pos hx, abs_of_pos (lt_of_lt_of_le hx hxy)]
    exact Int.log_mono_right hx hxy
  have := max_le_max h (le_refl (-1022 : ℤ))
  omega

theorem roundBinary64_mono_of_pos {x y : ℝ} (hx : 0 < x) (hxy : x ≤ y) :
    roundBinary64 x ≤ roundBinary64 y := by
  have hy : 0 < y := lt_of_lt_of_le hx hxy
  rcases (ulpExponent_mono hx hxy).lt_or_eq with hlt | heq
  · have h1 := roundBinary64_le_two_zpow hx.le
    have hn : -1022 ≤ Int.log 2 |y| := by
      by_contra hc
      have hy1 : ulpExponent y = -1022 - 52 := by
        unfold ulpExponent
        rw [max_eq_right (by omega)]
      have hx1 : -1022 - 52 ≤ ulpExponent x := by
        unfold ulpExponent
        have := le_max_right (Int.log 2 |x|) (-1022)
        omega
      omega
    have h2 := two_zpow_le_roundBinary64 hy hn
    have h3 : (2 : ℝ) ^ (ulpExponent x + 53) ≤ (2 : ℝ) ^ (ulpExponent y + 52) :=
      zpow_le_zpow_right₀ (by norm_num) (by omega)
    linarith
  · unfold roundBinary64
    rw [heq]
    have hq : x / (2 : ℝ) ^ ulpExponent y ≤ y / (2 : ℝ) ^ ulpExponent y :=
      div_le_div_of_nonneg_right hxy (two_zpow_pos _).le
    exact mul_le_mul_of_nonneg_right (Int.cast_le.mpr (roundNearestEven_mono hq))
      (two_zpow_pos _).le

/-- Rounding to binary64 is monotone. -/
theorem roundBinary64_mono {x y : ℝ} (hxy : x ≤ y) : roundBinary64 x ≤ roundBinary64 y := by
  rcases lt_trichotomy 0 x with hx | hx | hx
  · exact roundBinary64_mono_of_pos hx hxy
  · rw [← hx, roundBinary64_zero]
    exact roundBinary64_nonneg (hx ▸ hxy)
  · rcases le_or_lt 0 y with hy | hy
    · have h1 : roundBinary64 x ≤ 0 := by
        have := roundBinary64_nonneg (neg_nonneg.mpr hx.le)
        rw [roundBinary64_neg] at this
        linarith
      exact le_trans h1 (roundBinary64_nonneg hy)
    · have h := roundBinary64_mono_of_pos (neg_pos.mpr hy) (neg_le_neg hxy)
      rw [roundBinary64_neg, roundBinary64_neg] at h
      linarith

/-- Rounding to binary64 is idempotent: a rounded number is a binary64 number. -/
theorem roundBinary64_idem (x : ℝ) : roundBinary64 (roundBinary64 x) = roundBinary64 x := by
  have hu : -1074 ≤ ulpExponent x := by
    unfold ulpExponent
    have := le_max_right (Int.log 2 |x|) (-1022)
    omega
  have hb : |(roundNearestEven (x / (2 : ℝ) ^ ulpExponent x) : ℤ)| ≤ 2 ^ 53 := by
    have hlt := abs_lt_two_zpow x
    have habs : |x / (2 : ℝ) ^ ulpExponent x| ≤ (((2 : ℤ) ^ 53 : ℤ) : ℝ) := by
      rw [abs_div, abs_of_pos (two_zpow_pos _), div_le_iff₀ (two_zpow_pos _),
        intCast_two_pow_53, ← zpow_add₀ (by norm_num), add_comm]
      exact hlt.le
    rw [abs_le] at habs ⊢
    constructor
    · have := roundNearestEven_mono habs.1
      rw [← Int.cast_neg, roundNearestEven_intCast] at this
      exact this
    · have := roundNearestEven_mono habs.2
      rw [roundNearestEven_intCast] at this
      exact this
  rcases hb.lt_or_eq with hlt | heq
  · exact roundBinary64_dyadic _ _ hu hlt
  · have hcases : roundNearestEven (x / (2 : ℝ) ^ ulpExponent x) = 2 ^ 53 ∨
        roundNearestEven (x / (2 : ℝ) ^ ulpExponent x) = -2 ^ 53 := by
      rcases abs_cases (roundNearestEven (x / (2 : ℝ) ^ ulpExponent x)) with h | h <;> omega
    have hval : roundBinary64 x = (1 : ℤ) * (2 : ℝ) ^ (ulpExponent x + 53) ∨
        roundBinary64 x = ((-1 : ℤ) : ℝ) * (2 : ℝ) ^ (ulpExponent x + 53) := by
      unfold roundBinary64
      rcases hcases with h | h
      · left
        rw [h, intCast_two_pow_53, ← zpow_add₀ (by norm_num), add_comm, Int.cast_one, one_mul]
      · right
        rw [h, Int.cast_neg, intCast_two_pow_53, neg_mul, ← zpow_add₀ (by norm_num), add_comm,
          Int.cast_neg, Int.cast_one, neg_mul, one_mul]
    rcases hval with h | h
    · rw [h]
      exact roundBinary64_dyadic 1 _ (by omega) (by norm_num)
    · rw [h]
      exact roundBinary64_dyadic (-1) _ (by omega) (by norm_num)

/-! ## Arithmetic of `Binary64` -/

namespace Binary64

@[simp] theorem b64_ofNat_eq (n : ℕ) [n.AtLeastTwo] :
    (OfNat.ofNat n : Binary64) = val (roundBinary64 (OfNat.ofNat n)) := by
  show val (roundBinary64 ((OfNat.ofNat n : ℕ) : ℝ)) = val (roundBinary64 (OfNat.ofNat n))
  rw [Nat.cast_ofNat]

@[simp] theorem b64_ofScientific_eq (m : ℕ) (s : Bool) (e : ℕ) :
    (OfScientific.ofScientific m s e : Binary64)
      = val (roundBinary64 (OfScientific.ofScientific m s e)) := rfl

@[simp] theorem b64_val_add_val (a b : ℝ) : val a + val b = val (roundBinary64 (a + b)) := rfl
@[simp] theorem b64_val_sub_val (a b : ℝ) : val a - val b = val (roundBinary64 (a - b)) := rfl
@[simp] theorem b64_val_mul_val (a b : ℝ) : val a * val b = val (roundBinary64 (a * b)) := rfl
@[simp] theorem b64_neg_val (a : ℝ) : -val a = val (-a) := rfl
@[simp] theorem b64_val_div_val (a b : ℝ) :
    val a / val b = if b = 0 then nan else val (roundBinary64 (a / b)) := rfl
@[simp] theorem b64_val_lt_val (a b : ℝ) : val a < val b ↔ a < b := Iff.rfl
@[simp] theorem b64_val_le_val (a b : ℝ) : val a ≤ val b ↔ a ≤ b := Iff.rfl
@[simp] theorem b64_exp_val (a : ℝ) : exp (val a) = val (roundBinary64 (Real.exp a)) := rfl
@[simp] theorem b64_tanh_val (a : ℝ) : tanh (val a) = val (roundBinary64 (Real.tanh a)) := rfl

theorem b64_pow_val_val (x y : ℝ) : pow (val x) (val y) =
    if x < 0 ∧ ¬ Double.isInteger y then nan else if x = 0 ∧ y < 0 then nan
    else val (roundBinary64 (x ^ y)) := rfl

/-- On a non-negative base and a non-negative exponent `pow` is the rounded real power. -/
theorem b64_pow_of_nonneg {x y : ℝ} (hx : 0 ≤ x) (hy : 0 ≤ y) :
    pow (val x) (val y) = val (roundBinary64 (x ^ y)) := by
  rw [b64_pow_val_val, if_neg (fun h => absurd hx (not_le.mpr h.1)),
    if_neg (fun h => absurd hy (not_le.mpr h.2))]

end Binary64

/-- A natural number below `2^53` is a binary64 number. -/
theorem roundBinary64_natCast (n : ℕ) (hn : n < 2 ^ 53) : roundBinary64 (n : ℝ) = n := by
  have h := roundBinary64_intCast (n : ℤ) (by rw [abs_of_nonneg (by positivity)]; exact_mod_cast hn)
  rwa [Int.cast_natCast] at h

/-- A numeral below `2^53` is a binary64 number. -/
theorem roundBinary64_ofNat (n : ℕ) [n.AtLeastTwo] (hn : n < 2 ^ 53) :
    roundBinary64 (OfNat.ofNat n) = OfNat.ofNat n := by
  have h := roundBinary64_natCast n hn
  rwa [← Nat.cast_ofNat] 

theorem roundBinary64_one : roundBinary64 1 = 1 := by
  have h := roundBinary64_natCast 1 (by norm_num)
  rwa [Nat.cast_one] at h

/-- A dyadic rational `n / 2^j` with `|n| < 2^53` and `j ≤ 1074` is a binary64 number. -/
theorem roundBinary64_div_two_pow (n : ℤ) (j : ℕ) (hj : j ≤ 1074) (hn : |n| < 2 ^ 53) :
    roundBinary64 ((n : ℝ) / 2 ^ j) = (n : ℝ) / 2 ^ j := by
  have h := roundBinary64_dyadic n (-(j : ℤ)) (by omega) hn
  rwa [zpow_neg, zpow_natCast, ← div_eq_mul_inv] at h

/-- The number `e` to the power 38.75 is above `2^55`. -/
theorem two_pow_55_lt_exp : (2 : ℝ) ^ 55 < Real.exp (155 / 4) := by
  have h1 : (2.718 : ℝ) < Real.exp 1 := lt_trans (by norm_num) Real.exp_one_gt_d9
  have h2 : Real.exp 38 = Real.exp 1 ^ 38 := by
    rw [← Real.exp_nat_mul]
    norm_num
  have h3 : (2.718 : ℝ) ^ 38 ≤ Real.exp 38 := by
    rw [h2]
    exact pow_le_pow_left₀ (by norm_num) h1.le 38
  have h4 : (1.75 : ℝ) ≤ Real.exp (3 / 4) := by
    have := Real.add_one_le_exp (3 / 4)
    linarith
  have h5 : Real.exp (155 / 4) = Real.exp 38 * Real.exp (3 / 4) := by
    rw [← Real.exp_add]
    norm_num
  rw [h5]
  calc (2 : ℝ) ^ 55 < (2.718 : ℝ) ^ 38 * 1.75 := by norm_num
    _ ≤ Real.exp 38 * Real.exp (3 / 4) :=
        mul_le_mul h3 h4 (by norm_num) (Real.exp_pos 38).le

/-- For `x ≤ -38.75` the exponential is below `2^(-55)`. -/
theorem exp_lt_of_le {x : ℝ} (hx : x ≤ -(155 / 4)) : Real.exp x < 1 / 2 ^ 55 := by
  have h1 : Real.exp x ≤ Real.exp (-(155 / 4)) := Real.exp_le_exp.mpr hx
  have h2 : Real.exp (-(155 / 4)) = 1 / Real.exp (155 / 4) := by
    rw [Real.exp_neg, one_div]
  have h3 : 1 / Real.exp (155 / 4) < 1 / (2 : ℝ) ^ 55 :=
    one_div_lt_one_div_of_lt (by positivity) two_pow_55_lt_exp
  linarith

/-- A number between `1 - 2^(-55)` and `1` rounds to `1`. -/
theorem roundBinary64_eq_one {x : ℝ} (h1 : 1 - 1 / 2 ^ 55 ≤ x) (h2 : x ≤ 1) :
    roundBinary64 x = 1 := by
  apply le_antisymm
  · have h := roundBinary64_mono h2
    rwa [roundBinary64_one] at h
  · have hlow : roundBinary64 (1 - 1 / 2 ^ 55) = 1 := by
      have hpos : (0 : ℝ) < |1 - 1 / 2 ^ 55| := by
        rw [abs_of_pos (by norm_num)]
        norm_num
      have hlog : Int.log 2 |(1 : ℝ) - 1 / 2 ^ 55| = -1 := by
        have ha : (-1 : ℤ) ≤ Int.log 2 |(1 : ℝ) - 1 / 2 ^ 55| := by
          rw [← Int.zpow_le_iff_le_log (by norm_num) hpos, abs_of_pos (by norm_num)]
          norm_num
        have hb : Int.log 2 |(1 : ℝ) - 1 / 2 ^ 55| < 0 := by
          rw [← Int.lt_zpow_iff_log_lt (by norm_num) hpos, abs_of_pos (by norm_num)]
          norm_num
        omega
      have hu : ulpExponent (1 - 1 / 2 ^ 55) = -53 := by
        unfold ulpExponent
        rw [hlog]
        rfl
      have hq : ((1 : ℝ) - 1 / 2 ^ 55) / (2 : ℝ) ^ (-53 : ℤ) = 2 ^ 53 - 1 / 4 := by
        rw [zpow_neg]
        norm_num
      have hr : roundNearestEven ((2 : ℝ) ^ 53 - 1 / 4) = 2 ^ 53 := by
        have hfl : ⌊(2 : ℝ) ^ 53 - 1 / 4⌋ = 2 ^ 53 - 1 := by
          rw [Int.floor_eq_iff]
          push_cast
          constructor <;> norm_num
        unfold roundNearestEven
        rw [hfl]
        push_cast
        rw [if_neg (by norm_num), if_pos (by norm_num)]
      unfold roundBinary64
      rw [hu, hq, hr, zpow_neg]
      norm_num
    have h := roundBinary64_mono h1
    rwa [hlow] at h

/-! ## AndersonListon in binary64 -/

/-- The wind term of the AndersonListon density in binary64, as nested roundings. -/
theorem andersonListon_term64_val (W : ℝ) :
    (25. + 250. * (1. - Binary64.exp (-0.2 * (Binary64.val W - 5.))) : Binary64)
      = Binary64.val (roundBinary64 (25 + roundBinary64 (250 * roundBinary64 (1 -
          roundBinary64 (Real.exp
            (roundBinary64 (-roundBinary64 0.2 * roundBinary64 (W - 5)))))))) := by
  have e25 : roundBinary64 (OfScientific.ofScientific 25 true 0) = 25 := by
    rw [show (OfScientific.ofScientific 25 true 0 : ℝ) = 25 by norm_num]
    exact roundBinary64_ofNat 25 (by norm_num)
  have e250 : roundBinary64 (OfScientific.ofScientific 250 true 0) = 250 := by
    rw [show (OfScientific.ofScientific 250 true 0 : ℝ) = 250 by norm_num]
    exact roundBinary64_ofNat 250 (by norm_num)
  have e1 : roundBinary64 (OfScientific.ofScientific 1 true 0) = 1 := by
    rw [show (OfScientific.ofScientific 1 true 0 : ℝ) = 1 by norm_num]
    exact roundBinary64_one
  have e5 : roundBinary64 (OfScientific.ofScientific 5 true 0) = 5 := by
    rw [show (OfScientific.ofScientific 5 true 0 : ℝ) = 5 by norm_num]
    exact roundBinary64_ofNat 5 (by norm_num)
  simp only [Binary64.b64_ofScientific_eq, Binary64.b64_val_sub_val, Binary64.b64_neg_val,
    Binary64.b64_val_mul_val, Binary64.b64_exp_val, Binary64.b64_val_add_val, e25, e250, e1, e5]

/-- The rounded exponential of a non-positive number lies between `0` and `1`. -/
theorem roundBinary64_exp_bounds {x : ℝ} (hx : x ≤ 0) :
    0 ≤ roundBinary64 (Real.exp x) ∧ roundBinary64 (Real.exp x) ≤ 1 := by
  constructor
  · exact roundBinary64_nonneg (Real.exp_pos x).le
  · have h := roundBinary64_mono (Real.exp_le_one_iff.mpr hx)
    rwa [roundBinary64_one] at h

/-- The rounded argument of the exponential in the wind term is non-positive for `W ≥ 5`. -/
theorem andersonListon_exp_arg_nonpos {W : ℝ} (hW : 5 ≤ W) :
    roundBinary64 (-roundBinary64 0.2 * roundBinary64 (W - 5)) ≤ 0 := by
  have h1 : 0 ≤ roundBinary64 (0.2 : ℝ) := roundBinary64_nonneg (by norm_num)
  have h2 : 0 ≤ roundBinary64 (W - 5) := roundBinary64_nonneg (by linarith)
  have h3 : -roundBinary64 0.2 * roundBinary64 (W - 5) ≤ 0 := by
    rw [neg_mul]
    exact neg_nonpos.mpr (mul_nonneg h1 h2)
  have h := roundBinary64_mono h3
  rwa [roundBinary64_zero] at h

/-- The wind term in binary64 lies between `25` and `275` for every `W ≥ 5`. -/
theorem andersonListon_term64_bounds {W : ℝ} (hW : 5 ≤ W) :
    25 ≤ roundBinary64 (25 + roundBinary64 (250 * roundBinary64 (1 -
          roundBinary64 (Real.exp
            (roundBinary64 (-roundBinary64 0.2 * roundBinary64 (W - 5))))))) ∧
    roundBinary64 (25 + roundBinary64 (250 * roundBinary64 (1 -
          roundBinary64 (Real.exp
            (roundBinary64 (-roundBinary64 0.2 * roundBinary64 (W - 5))))))) ≤ 275 := by
  obtain ⟨hE0, hE1⟩ := roundBinary64_exp_bounds (andersonListon_exp_arg_nonpos hW)
  generalize roundBinary64 (Real.exp
    (roundBinary64 (-roundBinary64 0.2 * roundBinary64 (W - 5)))) = E at hE0 hE1
  have hs0 : 0 ≤ roundBinary64 (1 - E) := roundBinary64_nonneg (by linarith)
  have hs1 : roundBinary64 (1 - E) ≤ 1 := by
    have h := roundBinary64_mono (by linarith : 1 - E ≤ 1)
    rwa [roundBinary64_one] at h
  generalize roundBinary64 (1 - E) = s at hs0 hs1
  have hq0 : 0 ≤ roundBinary64 (250 * s) := roundBinary64_nonneg (by linarith)
  have hq1 : roundBinary64 (250 * s) ≤ 250 := by
    have h := roundBinary64_mono (by linarith : 250 * s ≤ 250)
    rwa [roundBinary64_ofNat 250 (by norm_num)] at h
  generalize roundBinary64 (250 * s) = q at hq0 hq1
  constructor
  · have h := roundBinary64_mono (by linarith : (25 : ℝ) ≤ 25 + q)
    rwa [roundBinary64_ofNat 25 (by norm_num)] at h
  · have h := roundBinary64_mono (by linarith : 25 + q ≤ 275)
    rwa [roundBinary64_ofNat 275 (by norm_num)] at h

/-- The wind term in binary64 is exactly `275` for every `W ≥ 200`. -/
theorem andersonListon_term64_eq_275 {W : ℝ} (hW : 200 ≤ W) :
    roundBinary64 (25 + roundBinary64 (250 * roundBinary64 (1 -
          roundBinary64 (Real.exp
            (roundBinary64 (-roundBinary64 0.2 * roundBinary64 (W - 5))))))) = 275 := by
  have hc : (51 : ℝ) / 2 ^ 8 ≤ roundBinary64 0.2 := by
    have h := roundBinary64_mono (by norm_num : ((51 : ℤ) : ℝ) / 2 ^ 8 ≤ 0.2)
    rw [roundBinary64_div_two_pow 51 8 (by norm_num) (by norm_num), Int.cast_ofNat] at h
    exact h
  have hw : (195 : ℝ) ≤ roundBinary64 (W - 5) := by
    have h := roundBinary64_mono (by linarith : (195 : ℝ) ≤ W - 5)
    rwa [roundBinary64_ofNat 195 (by norm_num)] at h
  have ha : roundBinary64 (-roundBinary64 0.2 * roundBinary64 (W - 5)) ≤ -(155 / 4) := by
    have hp : -roundBinary64 0.2 * roundBinary64 (W - 5) ≤ ((-155 : ℤ) : ℝ) / 2 ^ 2 := by
      have : (51 : ℝ) / 2 ^ 8 * 195 ≤ roundBinary64 0.2 * roundBinary64 (W - 5) :=
        mul_le_mul hc hw (by norm_num) (le_trans (by norm_num) hc)
      push_cast
      rw [neg_mul]
      norm_num at this ⊢
      linarith
    have h := roundBinary64_mono hp
    rw [roundBinary64_div_two_pow (-155) 2 (by norm_num) (by norm_num)] at h
    push_cast at h
    norm_num at h ⊢
    linarith
  have hE0 : 0 ≤ roundBinary64 (Real.exp
      (roundBinary64 (-roundBinary64 0.2 * roundBinary64 (W - 5)))) :=
    roundBinary64_nonneg (Real.exp_pos _).le
  have hE1 : roundBinary64 (Real.exp
      (roundBinary64 (-roundBinary64 0.2 * roundBinary64 (W - 5)))) ≤ 1 / 2 ^ 55 := by
    have h := roundBinary64_mono (exp_lt_of_le ha).le
    have hd := roundBinary64_div_two_pow 1 55 (by norm_num) (by norm_num)
    rw [Int.cast_one] at hd
    rwa [hd] at h
  generalize roundBinary64 (Real.exp
    (roundBinary64 (-roundBinary64 0.2 * roundBinary64 (W - 5)))) = E at hE0 hE1
  rw [roundBinary64_eq_one (by linarith : 1 - 1 / 2 ^ 55 ≤ 1 - E) (by linarith), mul_one,
    roundBinary64_ofNat 250 (by norm_num)]
  norm_num
  exact roundBinary64_ofNat 275 (by norm_num)

/-- The AndersonListon density in binary64 on a wind `W ≥ 5`: the Anderson density plus the
wind term. -/
theorem andersonListon_density64_of_ge (T0 T a b c : Binary64) (W : ℝ) (hW : 5 ≤ W) :
    SurfaceDensityAndersonListon.density64 T0 ⟨T, Binary64.val W, a, b, c⟩
      = SurfaceDensityAnderson.density64 T0 ⟨T, Binary64.val W, a, b, c⟩
        + (25. + 250. * (1. - Binary64.exp (-0.2 * (Binary64.val W - 5.)))) := by
  have h5 : Binary64.val W ≥ 5. := by
    show Binary64.val (roundBinary64 (OfScientific.ofScientific 5 true 0)) ≤ Binary64.val W
    rw [Binary64.b64_val_le_val, show (OfScientific.ofScientific 5 true 0 : ℝ) = 5 by norm_num,
      roundBinary64_ofNat 5 (by norm_num)]
    exact hW
  unfold SurfaceDensityAndersonListon.density64
  simp only [if_pos h5]

/-- The Anderson density in binary64 with `T0 = 273.15` at surface temperature `200`: the
floor `50`. -/
theorem anderson_density64_at_200 (w a b c : Binary64) :
    SurfaceDensityAnderson.density64 273.15 ⟨Binary64.val 200, w, a, b, c⟩ = Binary64.val 50 := by
  have hT0 : (273 : ℝ) ≤ roundBinary64 273.15 := by
    have h := roundBinary64_mono (by norm_num : (273 : ℝ) ≤ 273.15)
    rwa [roundBinary64_ofNat 273 (by norm_num)] at h
  have h1 : ¬ Binary64.val 200 > (273.15 : Binary64) + 2 := by
    simp only [gt_iff_lt, Binary64.b64_ofScientific_eq, Binary64.b64_ofNat_eq, Binary64.b64_val_add_val,
      Binary64.b64_val_lt_val, not_lt]
    rw [roundBinary64_ofNat 2 (by norm_num)]
    have h := roundBinary64_mono (by linarith only [hT0] : (275 : ℝ) ≤ roundBinary64 273.15 + 2)
    rw [roundBinary64_ofNat 275 (by norm_num)] at h
    linarith only [h]
  have h2 : ¬ (273.15 : Binary64) - 15. < Binary64.val 200 := by
    simp only [Binary64.b64_ofScientific_eq, Binary64.b64_val_sub_val, Binary64.b64_val_lt_val, not_lt]
    rw [show (OfScientific.ofScientific 15 true 0 : ℝ) = 15 by norm_num,
      roundBinary64_ofNat 15 (by norm_num)]
    have h := roundBinary64_mono (by linarith only [hT0] : (258 : ℝ) ≤ roundBinary64 273.15 - 15)
    rw [roundBinary64_ofNat 258 (by norm_num)] at h
    linarith only [h]
  unfold SurfaceDensityAnderson.density64
  simp only [if_neg h1, if_neg h2]
  rw [Binary64.b64_ofScientific_eq, show (OfScientific.ofScientific 50 true 0 : ℝ) = 50 by norm_num,
    roundBinary64_ofNat 50 (by norm_num)]

/-- C10, as stated, fails on the program: in binary64, at wind speed `200` the term
`25. + 250.*(1. - exp(-0.2*(W - 5.)))` is exactly `275`, not less than `275`: `exp` returns a
number below `2^(-55)` and `1. - exp(..)` rounds to `1`. With `T0 = 273.15` and surface
temperature `200` the Anderson density is `50` and the AndersonListon density is `325`. -/
theorem andersonListon_wind_term_reaches_275 :
    (25. + 250. * (1. - Binary64.exp (-0.2 * (Binary64.val 200 - 5.))) : Binary64)
      = Binary64.val 275 ∧
    ¬ (275 : ℝ) < 275 ∧
    SurfaceDensityAnderson.density64 273.15
      ⟨Binary64.val 200, Binary64.val 200, Binary64.val 0, Binary64.val 0, Binary64.val 0⟩
      = Binary64.val 50 ∧
    SurfaceDensityAndersonListon.density64 273.15
      ⟨Binary64.val 200, Binary64.val 200, Binary64.val 0, Binary64.val 0, Binary64.val 0⟩
      = Binary64.val 325 := by
  have ht : (25. + 250. * (1. - Binary64.exp (-0.2 * (Binary64.val 200 - 5.))) : Binary64)
      = Binary64.val 275 := by
    rw [andersonListon_term64_val 200, andersonListon_term64_eq_275 le_rfl]
  refine ⟨ht, lt_irrefl _, anderson_density64_at_200 _ _ _ _, ?_⟩
  rw [andersonListon_density64_of_ge _ _ _ _ _ 200 (by norm_num), ht,
    anderson_density64_at_200, Binary64.b64_val_add_val]
  norm_num
  exact roundBinary64_ofNat 325 (by norm_num)

/-- C10 (amended): in binary64, for every wind speed `W ≥ 5` the AndersonListon `density()` is
the Anderson `density()` plus the term `25. + 250.*(1. - exp(-0.2*(W - 5.)))`, and that term is
at least `25` and at most `275`; it is exactly `275` for every `W ≥ 200`; so it approaches `275`:
for every `ε > 0` there is a `W0` such that for every `W ≥ W0` the term exceeds `275 - ε`. -/
theorem andersonListon_wind_term_le_275 (T0 T a b c : Binary64) :
    (∀ W : ℝ, 5 ≤ W →
      SurfaceDensityAndersonListon.density64 T0 ⟨T, Binary64.val W, a, b, c⟩
        = SurfaceDensityAnderson.density64 T0 ⟨T, Binary64.val W, a, b, c⟩
          + (25. + 250. * (1. - Binary64.exp (-0.2 * (Binary64.val W - 5.)))) ∧
      ∃ t : ℝ, (25. + 250. * (1. - Binary64.exp (-0.2 * (Binary64.val W - 5.))) : Binary64)
          = Binary64.val t ∧ 25 ≤ t ∧ t ≤ 275) ∧
    (∀ W : ℝ, 200 ≤ W →
      (25. + 250. * (1. - Binary64.exp (-0.2 * (Binary64.val W - 5.))) : Binary64)
        = Binary64.val 275) ∧
    (∀ ε : ℝ, 0 < ε → ∃ W0 : ℝ, ∀ W : ℝ, W0 ≤ W → 5 ≤ W ∧
      ∃ t : ℝ, (25. + 250. * (1. - Binary64.exp (-0.2 * (Binary64.val W - 5.))) : Binary64)
          = Binary64.val t ∧ 275 - ε < t) := by
  have h200 : ∀ W : ℝ, 200 ≤ W →
      (25. + 250. * (1. - Binary64.exp (-0.2 * (Binary64.val W - 5.))) : Binary64)
        = Binary64.val 275 := by
    intro W hW
    rw [andersonListon_term64_val W, andersonListon_term64_eq_275 hW]
  refine ⟨fun W hW => ⟨andersonListon_density64_of_ge T0 T a b c W hW, _,
    andersonListon_term64_val W, andersonListon_term64_bounds hW⟩, h200, fun ε hε => ?_⟩
  exact ⟨200, fun W hW => ⟨by linarith, 275, h200 W hW, by linarith⟩⟩

/-- Instance of `andersonListon_wind_term_le_275`: at wind `10` the term lies between `25` and
`275`; at wind `250` it is `275`; for `ε = 1` some wind threshold brings the term above `274`. -/
theorem andersonListon_wind_term_le_275_witness :
    ((5 : ℝ) ≤ 10 ∧
      ∃ t : ℝ, (25. + 250. * (1. - Binary64.exp (-0.2 * (Binary64.val 10 - 5.))) : Binary64)
          = Binary64.val t ∧ 25 ≤ t ∧ t ≤ 275) ∧
    ((200 : ℝ) ≤ 250 ∧
      (25. + 250. * (1. - Binary64.exp (-0.2 * (Binary64.val 250 - 5.))) : Binary64)
        = Binary64.val 275) ∧
    ((0 : ℝ) < 1 ∧ ∃ W0 : ℝ, ∀ W : ℝ, W0 ≤ W → 5 ≤ W ∧
      ∃ t : ℝ, (25. + 250. * (1. - Binary64.exp (-0.2 * (Binary64.val W - 5.))) : Binary64)
          = Binary64.val t ∧ 275 - 1 < t) :=
  ⟨⟨by norm_num,
      ((andersonListon_wind_term_le_275 273.15 (Binary64.val 263) (Binary64.val 0)
        (Binary64.val 0) (Binary64.val 0)).1 10 (by norm_num)).2⟩,
    ⟨by norm_num,
      (andersonListon_wind_term_le_275 273.15 (Binary64.val 263) (Binary64.val 0)
        (Binary64.val 0) (Binary64.val 0)).2.1 250 (by norm_num)⟩,
    ⟨by norm_num,
      (andersonListon_wind_term_le_275 273.15 (Binary64.val 263) (Binary64.val 0)
        (Binary64.val 0) (Binary64.val 0)).2.2 1 (by norm_num)⟩⟩

/-! ## Slater2016 in binary64 -/

/-- For `x ≥ 20` the hyperbolic tangent is within `2^(-55)` of `1`. -/
theorem one_sub_le_tanh {x : ℝ} (hx : 20 ≤ x) : 1 - 1 / 2 ^ 55 ≤ Real.tanh x := by
  have hc : 0 < Real.cosh x := Real.cosh_pos x
  have h1 : 1 - Real.tanh x = Real.exp (-x) / Real.cosh x := by
    rw [Real.tanh_eq_sinh_div_cosh, ← Real.cosh_sub_sinh]
    field_simp
  have h2 : Real.exp x / 2 ≤ Real.cosh x := by
    rw [Real.cosh_eq]
    have := Real.exp_pos (-x)
    linarith
  have h3 : Real.exp (-x) / Real.cosh x ≤ Real.exp (-x) / (Real.exp x / 2) :=
    div_le_div_of_nonneg_left (Real.exp_pos _).le (by positivity) h2
  have h4 : Real.exp (-x) / (Real.exp x / 2) = 2 * Real.exp (-(2 * x)) := by
    rw [show -(2 * x) = -x + -x by ring, Real.exp_add, Real.exp_neg]
    field_simp
  have h5 : Real.exp (-(2 * x)) < 1 / 2 ^ 55 := exp_lt_of_le (by linarith)
  have h6 : Real.exp (-(2 * x)) ≤ Real.exp (-(155 / 4)) * Real.exp (-(5 / 4)) := by
    rw [← Real.exp_add]
    exact Real.exp_le_exp.mpr (by linarith)
  have h7 : Real.exp (-(5 / 4)) ≤ 1 / 2 := by
    rw [Real.exp_neg, ← one_div]
    apply one_div_le_one_div_of_le (by norm_num)
    have := Real.add_one_le_exp (5 / 4)
    linarith
  have h8 : Real.exp (-(155 / 4)) < 1 / 2 ^ 55 := exp_lt_of_le le_rfl
  have h9 : Real.exp (-(155 / 4)) * Real.exp (-(5 / 4)) ≤ 1 / 2 ^ 55 * (1 / 2) :=
    mul_le_mul h8.le h7 (Real.exp_pos _).le (by positivity)
  linarith

/-- The rounded hyperbolic tangent lies between `-1` and `1`. -/
theorem roundBinary64_tanh_bounds (x : ℝ) :
    -1 ≤ roundBinary64 (Real.tanh x) ∧ roundBinary64 (Real.tanh x) ≤ 1 := by
  have hb := real_tanh_bounds x
  constructor
  · have h := roundBinary64_mono hb.1.le
    rwa [roundBinary64_neg, roundBinary64_one] at h
  · have h := roundBinary64_mono hb.2.le
    rwa [roundBinary64_one] at h

/-- For `x ≥ 20` the rounded hyperbolic tangent is `1`. -/
theorem roundBinary64_tanh_of_ge {x : ℝ} (hx : 20 ≤ x) : roundBinary64 (Real.tanh x) = 1 :=
  roundBinary64_eq_one (one_sub_le_tanh hx) (real_tanh_bounds x).2.le

/-- For `x ≤ -20` the rounded hyperbolic tangent is `-1`. -/
theorem roundBinary64_tanh_of_le {x : ℝ} (hx : x ≤ -20) : roundBinary64 (Real.tanh x) = -1 := by
  have h := roundBinary64_tanh_of_ge (by linarith : (20 : ℝ) ≤ -x)
  rw [Real.tanh_neg, roundBinary64_neg] at h
  linarith

/-- The literal `8.8` rounds to a number that is at least `8`. -/
theorem eight_le_roundBinary64 : (8 : ℝ) ≤ roundBinary64 8.8 := by
  have h := roundBinary64_mono (by norm_num : (8 : ℝ) ≤ 8.8)
  rwa [roundBinary64_ofNat 8 (by norm_num)] at h

/-- The wind term of the Slater2016 density in binary64, as nested roundings. -/
theorem slater_term64_val (W : ℝ) :
    (266.861 * Binary64.pow ((1. + Binary64.tanh (Binary64.val W / 5.0)) / 2.) 8.8 : Binary64)
      = Binary64.val (roundBinary64 (roundBinary64 266.861 *
          roundBinary64 (roundBinary64 (roundBinary64 (1 +
            roundBinary64 (Real.tanh (roundBinary64 (W / 5)))) / 2) ^ roundBinary64 8.8))) := by
  have e5 : roundBinary64 (OfScientific.ofScientific 50 true 1) = 5 := by
    rw [show (OfScientific.ofScientific 50 true 1 : ℝ) = 5 by norm_num]
    exact roundBinary64_ofNat 5 (by norm_num)
  have e2 : roundBinary64 (OfScientific.ofScientific 2 true 0) = 2 := by
    rw [show (OfScientific.ofScientific 2 true 0 : ℝ) = 2 by norm_num]
    exact roundBinary64_ofNat 2 (by norm_num)
  have e1 : roundBinary64 (OfScientific.ofScientific 1 true 0) = 1 := by
    rw [show (OfScientific.ofScientific 1 true 0 : ℝ) = 1 by norm_num]
    exact roundBinary64_one
  have hu0 : 0 ≤ roundBinary64 (1 + roundBinary64 (Real.tanh (roundBinary64 (W / 5)))) :=
    roundBinary64_nonneg (by linarith [(roundBinary64_tanh_bounds (roundBinary64 (W / 5))).1])
  have hb0 : 0 ≤ roundBinary64 (roundBinary64 (1 +
      roundBinary64 (Real.tanh (roundBinary64 (W / 5)))) / 2) :=
    roundBinary64_nonneg (div_nonneg hu0 (by norm_num))
  simp only [Binary64.b64_ofScientific_eq, e5, e2, e1, Binary64.b64_val_div_val,
    if_neg (by norm_num : ¬ (5 : ℝ) = 0), if_neg (by norm_num : ¬ (2 : ℝ) = 0),
    Binary64.b64_tanh_val, Binary64.b64_val_add_val]
  rw [Binary64.b64_pow_of_nonneg hb0 (le_trans (by norm_num) eight_le_roundBinary64),
    Binary64.b64_val_mul_val]

/-- The wind term in binary64 lies between `0` and the binary64 number `266.861`. -/
theorem slater_term64_bounds (W : ℝ) :
    0 ≤ roundBinary64 (roundBinary64 266.861 *
          roundBinary64 (roundBinary64 (roundBinary64 (1 +
            roundBinary64 (Real.tanh (roundBinary64 (W / 5)))) / 2) ^ roundBinary64 8.8)) ∧
    roundBinary64 (roundBinary64 266.861 *
          roundBinary64 (roundBinary64 (roundBinary64 (1 +
            roundBinary64 (Real.tanh (roundBinary64 (W / 5)))) / 2) ^ roundBinary64 8.8))
      ≤ roundBinary64 266.861 := by
  obtain ⟨ht0, ht1⟩ := roundBinary64_tanh_bounds (roundBinary64 (W / 5))
  generalize roundBinary64 (Real.tanh (roundBinary64 (W / 5))) = t at ht0 ht1
  have hu0 : 0 ≤ roundBinary64 (1 + t) := roundBinary64_nonneg (by linarith)
  have hu1 : roundBinary64 (1 + t) ≤ 2 := by
    have h := roundBinary64_mono (by linarith : 1 + t ≤ 2)
    rwa [roundBinary64_ofNat 2 (by norm_num)] at h
  generalize roundBinary64 (1 + t) = u at hu0 hu1
  have hb0 : 0 ≤ roundBinary64 (u / 2) := roundBinary64_nonneg (by linarith)
  have hb1 : roundBinary64 (u / 2) ≤ 1 := by
    have h := roundBinary64_mono (by linarith : u / 2 ≤ 1)
    rwa [roundBinary64_one] at h
  generalize roundBinary64 (u / 2) = b at hb0 hb1
  have hy : 0 ≤ roundBinary64 8.8 := le_trans (by norm_num) eight_le_roundBinary64
  have hp0 : 0 ≤ roundBinary64 (b ^ roundBinary64 8.8) :=
    roundBinary64_nonneg (Real.rpow_nonneg hb0 _)
  have hp1 : roundBinary64 (b ^ roundBinary64 8.8) ≤ 1 := by
    have h := roundBinary64_mono (Real.rpow_le_one hb0 hb1 hy)
    rwa [roundBinary64_one] at h
  generalize roundBinary64 (b ^ roundBinary64 8.8) = q at hp0 hp1
  have hc : 0 ≤ roundBinary64 266.861 := roundBinary64_nonneg (by norm_num)
  constructor
  · exact roundBinary64_nonneg (mul_nonneg hc hp0)
  · have h := roundBinary64_mono
      (by nlinarith : roundBinary64 266.861 * q ≤ roundBinary64 266.861)
    rwa [roundBinary64_idem] at h

/-- The wind term in binary64 is exactly the binary64 number `266.861` for every `W ≥ 100`. -/
theorem slater_term64_eq_top {W : ℝ} (hW : 100 ≤ W) :
    roundBinary64 (roundBinary64 266.861 *
          roundBinary64 (roundBinary64 (roundBinary64 (1 +
            roundBinary64 (Real.tanh (roundBinary64 (W / 5)))) / 2) ^ roundBinary64 8.8))
      = roundBinary64 266.861 := by
  have hx : (20 : ℝ) ≤ roundBinary64 (W / 5) := by
    have h := roundBinary64_mono (by linarith : (20 : ℝ) ≤ W / 5)
    rwa [roundBinary64_ofNat 20 (by norm_num)] at h
  rw [roundBinary64_tanh_of_ge hx, show (1 : ℝ) + 1 = 2 by norm_num,
    roundBinary64_ofNat 2 (by norm_num), show (2 : ℝ) / 2 = 1 by norm_num, roundBinary64_one,
    Real.one_rpow, roundBinary64_one, mul_one, roundBinary64_idem]

/-- The wind term in binary64 is exactly `0` for every `W ≤ -100`. -/
theorem slater_term64_eq_zero {W : ℝ} (hW : W ≤ -100) :
    roundBinary64 (roundBinary64 266.861 *
          roundBinary64 (roundBinary64 (roundBinary64 (1 +
            roundBinary64 (Real.tanh (roundBinary64 (W / 5)))) / 2) ^ roundBinary64 8.8))
      = 0 := by
  have hx : roundBinary64 (W / 5) ≤ -20 := by
    have h := roundBinary64_mono (by linarith : W / 5 ≤ -(20 : ℝ))
    rwa [roundBinary64_neg, roundBinary64_ofNat 20 (by norm_num)] at h
  have hy : roundBinary64 8.8 ≠ 0 := by
    have := eight_le_roundBinary64
    intro h
    rw [h] at this
    norm_num at this
  rw [roundBinary64_tanh_of_le hx, show (1 : ℝ) + -1 = 0 by norm_num, roundBinary64_zero,
    zero_div, roundBinary64_zero, Real.zero_rpow hy, roundBinary64_zero, mul_zero,
    roundBinary64_zero]

/-- The Slater2016 density in binary64 with `T0 = 273.15` at surface temperature `280` and a
real wind: the upper branch `170` plus the wind term. -/
theorem slater_density64_at_280 (W : ℝ) (a b c : Binary64) :
    SurfaceDensitySlater2016.density64 273.15 ⟨Binary64.val 280, Binary64.val W, a, b, c⟩
      = Binary64.val 170
        + 266.861 * Binary64.pow ((1. + Binary64.tanh (Binary64.val W / 5.0)) / 2.) 8.8 := by
  have hT0 : roundBinary64 273.15 ≤ (274 : ℝ) := by
    have h := roundBinary64_mono (by norm_num : (273.15 : ℝ) ≤ 274)
    rwa [roundBinary64_ofNat 274 (by norm_num)] at h
  have h1 : Binary64.val 280 > (273.15 : Binary64) + 2 := by
    simp only [gt_iff_lt, Binary64.b64_ofScientific_eq, Binary64.b64_ofNat_eq, Binary64.b64_val_add_val,
      Binary64.b64_val_lt_val]
    rw [roundBinary64_ofNat 2 (by norm_num)]
    have h := roundBinary64_mono (by linarith only [hT0] : roundBinary64 273.15 + 2 ≤ (276 : ℝ))
    rw [roundBinary64_ofNat 276 (by norm_num)] at h
    linarith only [h]
  have h170 : (170. : Binary64) = Binary64.val 170 := by
    rw [Binary64.b64_ofScientific_eq, show (OfScientific.ofScientific 170 true 0 : ℝ) = 170 by
      norm_num, roundBinary64_ofNat 170 (by norm_num)]
  unfold SurfaceDensitySlater2016.density64
  simp only [if_pos h1, h170]

/-- C12, as stated, fails on the program: in binary64, at wind speed `100` the wind term of the
Slater2016 `density()` is exactly the constant `266.861` (`tanh` rounds to `1`), and at wind
speed `-100` it is exactly `0` (`tanh` rounds to `-1`), so neither bound is strict. With
`T0 = 273.15` and surface temperature `280` the density at wind `-100` is exactly `170`. -/
theorem slater_wind_term_reaches_bounds :
    (266.861 * Binary64.pow ((1. + Binary64.tanh (Binary64.val 100 / 5.0)) / 2.) 8.8 : Binary64)
      = 266.861 ∧
    (266.861 * Binary64.pow ((1. + Binary64.tanh (Binary64.val (-100) / 5.0)) / 2.) 8.8 :
      Binary64) = Binary64.val 0 ∧
    SurfaceDensitySlater2016.density64 273.15
      ⟨Binary64.val 280, Binary64.val (-100), Binary64.val 0, Binary64.val 0, Binary64.val 0⟩
      = Binary64.val 170 := by
  have hz : (266.861 * Binary64.pow ((1. + Binary64.tanh (Binary64.val (-100) / 5.0)) / 2.)
      8.8 : Binary64) = Binary64.val 0 := by
    rw [slater_term64_val (-100), slater_term64_eq_zero le_rfl]
  refine ⟨?_, hz, ?_⟩
  · rw [slater_term64_val 100, slater_term64_eq_top le_rfl, Binary64.b64_ofScientific_eq]
  · rw [slater_density64_at_280, hz, Binary64.b64_val_add_val, add_zero,
      roundBinary64_ofNat 170 (by norm_num)]

/-- C12 (amended): in binary64, for every wind speed `W`, of any sign, the Slater2016
`density()` is its temperature-branch value plus the wind term
`266.861 * pow((1. + tanh(W/5.0))/2., 8.8)`, and that term is at least `0` and at most the
constant `266.861`; it is exactly `266.861` for every `W ≥ 100` and exactly `0` for every
`W ≤ -100`. -/
theorem slater_wind_term_range (T0 T a b c : Binary64) :
    (∀ W : ℝ,
      SurfaceDensitySlater2016.density64 T0 ⟨T, Binary64.val W, a, b, c⟩
        = (if T > T0 + 2 then 170.
            else if T0 - 15. < T then 50. + 1.7 * Binary64.pow (T - T0 + 15) 1.5
            else -3.8333 * (T - T0) - 0.0333 * Binary64.pow (T - T0) 2)
          + 266.861 * Binary64.pow ((1. + Binary64.tanh (Binary64.val W / 5.0)) / 2.) 8.8 ∧
      ∃ t : ℝ,
        (266.861 * Binary64.pow ((1. + Binary64.tanh (Binary64.val W / 5.0)) / 2.) 8.8 :
          Binary64) = Binary64.val t ∧ 0 ≤ t ∧ Binary64.val t ≤ 266.861) ∧
    (∀ W : ℝ, 100 ≤ W →
      (266.861 * Binary64.pow ((1. + Binary64.tanh (Binary64.val W / 5.0)) / 2.) 8.8 :
        Binary64) = 266.861) ∧
    (∀ W : ℝ, W ≤ -100 →
      (266.861 * Binary64.pow ((1. + Binary64.tanh (Binary64.val W / 5.0)) / 2.) 8.8 :
        Binary64) = Binary64.val 0) := by
  refine ⟨fun W => ⟨rfl, _, slater_term64_val W, (slater_term64_bounds W).1, ?_⟩,
    fun W hW => ?_, fun W hW => ?_⟩
  · rw [Binary64.b64_ofScientific_eq, Binary64.b64_val_le_val]
    exact (slater_term64_bounds W).2
  · rw [slater_term64_val W, slater_term64_eq_top hW, Binary64.b64_ofScientific_eq]
  · rw [slater_term64_val W, slater_term64_eq_zero hW]

/-- Instance of `slater_wind_term_range`: at wind `150` the wind term is the constant `266.861`,
at wind `-150` it is `0`. -/
theorem slater_wind_term_range_witness :
    ((100 : ℝ) ≤ 150 ∧
      (266.861 * Binary64.pow ((1. + Binary64.tanh (Binary64.val 150 / 5.0)) / 2.) 8.8 :
        Binary64) = 266.861) ∧
    ((-150 : ℝ) ≤ -100 ∧
      (266.861 * Binary64.pow ((1. + Binary64.tanh (Binary64.val (-150) / 5.0)) / 2.) 8.8 :
        Binary64) = Binary64.val 0) :=
  ⟨⟨by norm_num,
      (slater_wind_term_range 273.15 (Binary64.val 263) (Binary64.val 0) (Binary64.val 0)
        (Binary64.val 0)).2.1 150 (by norm_num)⟩,
    ⟨by norm_num,
      (slater_wind_term_range 273.15 (Binary64.val 263) (Binary64.val 0) (Binary64.val 0)
        (Binary64.val 0)).2.2 (-150) (by norm_num)⟩⟩

end
